import Mathlib

/-!
Verification of the greedy laser-cutting layout program (halefoglu-kurutepe.py).

The program packs copies of a convex polygon (the convex hull of user points)
into a rectangular container by sweeping a uniform grid of anchors, trying a
fixed list of rotation angles at each anchor, and accepting the first candidate
that is contained in the container and intersects no previously placed shape.

The embedding below translates the source into Lean: polygons are lists of
rational points; the shapely geometric predicates `contains` and `intersects`
are embedded for the convex polygons the program manipulates (containment via
the container's edge half-planes, intersection via the separating-axis test,
which for convex polygons agrees with closed-set intersection; boundary contact
counts as intersection exactly as in shapely).  Rotation angles are the
program's fixed policy {0, 90, 180, 270} degrees, whose sines and cosines are
exact rationals.  The semantics of a polygon is the convex hull of its
vertices in the real plane.
-/

/-- A 2D point with rational coordinates (`Point2D` of the spec). -/
abbrev Pt : Type := ℚ × ℚ

/-- A polygon given by its ordered list of vertices (shapely `Polygon`;
the ring is closed implicitly, as shapely closes it). -/
abbrev Pgon : Type := List Pt

/-- Consecutive vertex pairs of the closed ring of a polygon:
for `[p0, p1, ..., pn]` the pairs `(p0,p1), ..., (p(n-1),pn), (pn,p0)`. -/
def cyclicPairs : Pgon → List (Pt × Pt)
  | [] => []
  | p :: rest => List.zip (p :: rest) (rest ++ [p])

/-- The shoelace sum `Σ (x_i * y_{i+1} - x_{i+1} * y_i)` over the closed ring;
twice the signed area of the polygon. -/
def shoelaceSum (P : Pgon) : ℚ :=
  ((cyclicPairs P).map (fun ab => ab.1.1 * ab.2.2 - ab.2.1 * ab.1.2)).sum

/-- shapely `Polygon.area`: the absolute value of half the shoelace sum. -/
def areaB (P : Pgon) : ℚ := |shoelaceSum P| / 2

/-- shapely `Polygon.centroid` (area centroid of the ring);
junk value when the signed area is zero (shapely yields NaN there,
and the program never uses that case). -/
def centroidOf (P : Pgon) : Pt :=
  let s := shoelaceSum P
  ( ((cyclicPairs P).map
      (fun ab => (ab.1.1 + ab.2.1) * (ab.1.1 * ab.2.2 - ab.2.1 * ab.1.2))).sum / (3 * s)
  , ((cyclicPairs P).map
      (fun ab => (ab.1.2 + ab.2.2) * (ab.1.1 * ab.2.2 - ab.2.1 * ab.1.2))).sum / (3 * s) )

/-- The program's rotation angles: the fixed policy {0, 90, 180, 270} degrees
(`angles = [0, 90, 180, 270]` in the source). -/
inductive Angle : Type
  | a0 : Angle
  | a90 : Angle
  | a180 : Angle
  | a270 : Angle
deriving DecidableEq

/-- Cosine of an allowed angle (exact, the angles being multiples of 90°). -/
def cosA : Angle → ℚ
  | Angle.a0 => 1
  | Angle.a90 => 0
  | Angle.a180 => -1
  | Angle.a270 => 0

/-- Sine of an allowed angle (exact; shapely's positive = counter-clockwise). -/
def sinA : Angle → ℚ
  | Angle.a0 => 0
  | Angle.a90 => 1
  | Angle.a180 => 0
  | Angle.a270 => -1

/-- shapely `rotate(shape, angle, origin='centroid')`: rotate every vertex
about the polygon's centroid. -/
def rotateShape (shape : Pgon) (ang : Angle) : Pgon :=
  let c := centroidOf shape
  shape.map (fun p =>
    ( c.1 + cosA ang * (p.1 - c.1) - sinA ang * (p.2 - c.2)
    , c.2 + sinA ang * (p.1 - c.1) + cosA ang * (p.2 - c.2) ))

/-- shapely `translate(shape, xoff, yoff)`. -/
def translateP (P : Pgon) (xoff yoff : ℚ) : Pgon :=
  P.map (fun p => (p.1 + xoff, p.2 + yoff))

/-- Helper for first-occurrence deduplication: drop the angles already seen. -/
def dedupFirstAux (seen : List Angle) : List Angle → List Angle
  | [] => []
  | a :: rest =>
    if a ∈ seen then dedupFirstAux seen rest
    else a :: dedupFirstAux (a :: seen) rest

/-- First-occurrence deduplication, the key order of a Python dict built by
repeated assignment (later duplicates keep the first position). -/
def dedupFirst (l : List Angle) : List Angle := dedupFirstAux [] l

/-- `create_rotated_shapes(shape, angles)`: the dict mapping each angle of the
list to the shape rotated by it, in the dict's insertion order. -/
def create_rotated_shapes (shape : Pgon) (angles : List Angle) : List (Angle × Pgon) :=
  (dedupFirst angles).map (fun a => (a, rotateShape shape a))

/-- Cross product of the edge `(a, b)` with the point `p`:
positive when `p` is strictly to the left of the directed edge. -/
def edgeCross (ab : Pt × Pt) (p : Pt) : ℚ :=
  (ab.2.1 - ab.1.1) * (p.2 - ab.1.2) - (ab.2.2 - ab.1.2) * (p.1 - ab.1.1)

/-- Point-in-convex-polygon test for a counter-clockwise polygon: the point is
on the closed left side of every edge.  This embeds shapely's boundary-inclusive
containment of a point for the program's containers (CCW convex rings). -/
def pointInPolyB (p : Pt) (poly : Pgon) : Bool :=
  (cyclicPairs poly).all (fun ab => decide (0 ≤ edgeCross ab p))

/-- shapely `A.contains(B)` for the program's convex geometries: every vertex
of `B` lies in the closed region bounded by the CCW convex ring `A` (for convex
polygons the hull of the vertices is then contained in `A`). -/
def containsB (cont : Pgon) (cand : Pgon) : Bool :=
  cand.all (fun p => pointInPolyB p cont)

/-- Projection of a point onto an axis direction `n`. -/
def projAxis (n : Pt) (p : Pt) : ℚ := n.1 * p.1 + n.2 * p.2

/-- Outward edge normals of a polygon's ring (one perpendicular per edge;
the sign is irrelevant for the separating-axis test). -/
def normalsOf (P : Pgon) : List Pt :=
  (cyclicPairs P).map (fun ab => (ab.1.2 - ab.2.2, ab.2.1 - ab.1.1))

/-- Every element of the first list is strictly below every element
of the second. -/
def allLtB (l1 l2 : List ℚ) : Bool :=
  l1.all (fun u => l2.all (fun v => decide (u < v)))

/-- The axis `n` strictly separates the vertex projections of `P` and `Q`. -/
def sepOnAxisB (n : Pt) (P Q : Pgon) : Bool :=
  allLtB (P.map (projAxis n)) (Q.map (projAxis n)) ||
  allLtB (Q.map (projAxis n)) (P.map (projAxis n))

/-- shapely `P.intersects(Q)` for convex polygons, by the separating-axis
theorem: the closed polygons share a point (boundary contact included) exactly
when no edge normal of either polygon strictly separates them. -/
def intersectsB (P Q : Pgon) : Bool :=
  ! ((normalsOf P ++ normalsOf Q).any (fun n => sepOnAxisB n P Q))

/-- The `for existing_shape in placed_shapes` loop of `can_place`:
returns `false` on the first placed shape the candidate intersects. -/
def overlapScan (candidate : Pgon) : List Pgon → Bool
  | [] => true
  | e :: rest => if intersectsB candidate e then false else overlapScan candidate rest

/-- `can_place(candidate, placed_shapes, bounds)` from the source: the
candidate must be contained in the container (`bounds`) and must intersect no
already placed shape. -/
def can_place (candidate : Pgon) (placed_shapes : List Pgon) (bounds : Pgon) : Bool :=
  if ! containsB bounds candidate then false
  else overlapScan candidate placed_shapes

/-- shapely `container.bounds`: `(min x, min y, max x, max y)` over the
vertices (junk `(0,0,0,0)` for an empty vertex list). -/
def boundsOf (P : Pgon) : ℚ × ℚ × ℚ × ℚ :=
  match P with
  | [] => (0, 0, 0, 0)
  | p :: rest =>
    ( rest.foldl (fun m q => min m q.1) p.1
    , rest.foldl (fun m q => min m q.2) p.2
    , rest.foldl (fun m q => max m q.1) p.1
    , rest.foldl (fun m q => max m q.2) p.2 )

/-- `np.arange(lo, hi, step)`: the points `lo + k * step` for
`0 ≤ k < ⌈(hi - lo) / step⌉`. -/
def arange (lo hi step : ℚ) : List ℚ :=
  (List.range (Int.toNat ⌈(hi - lo) / step⌉)).map (fun k : ℕ => lo + (k : ℚ) * step)

/-- The grid anchors swept by `place_shapes`: outer loop over x, inner over y. -/
def gridAnchors (x_min y_min x_max y_max step : ℚ) : List (ℚ × ℚ) :=
  (arange x_min x_max step).flatMap (fun x => (arange y_min y_max step).map (fun y => (x, y)))

/-- The `for angle, rotated in rotated_shapes.items()` loop at one anchor:
translate each rotated variant by `(x, y)` and return the first candidate that
`can_place` accepts, in the dict's angle order; `none` when all are rejected. -/
def tryAnglesAt (rotated : List (Angle × Pgon)) (x y : ℚ)
    (placed : List Pgon) (container : Pgon) : Option Pgon :=
  match rotated with
  | [] => none
  | ar :: rest =>
    let candidate := translateP ar.2 x y
    if can_place candidate placed container then some candidate
    else tryAnglesAt rest x y placed container

/-- One anchor step of `place_shapes`: append the first accepted candidate
(if any) to the placed list (`placed_shapes.append(candidate)` then `break`). -/
def placeAtAnchor (container : Pgon) (rotated : List (Angle × Pgon))
    (placed : List Pgon) (xy : ℚ × ℚ) : List Pgon :=
  match tryAnglesAt rotated xy.1 xy.2 placed container with
  | some c => placed ++ [c]
  | none => placed

/-- `place_shapes(container, shape, angles, grid_step)` from the source:
sweep the grid anchors over the container's bounds and greedily accept
candidates. -/
def place_shapes (container : Pgon) (shape : Pgon) (angles : List Angle)
    (grid_step : ℚ) : List Pgon :=
  let b := boundsOf container
  let rotated := create_rotated_shapes shape angles
  (gridAnchors b.1 b.2.1 b.2.2.1 b.2.2.2 grid_step).foldl (placeAtAnchor container rotated) []

/-- The container polygon `Polygon([(0,0), (xl,0), (xl,yl), (0,yl)])`
built by `draw_full_convex_hull`. -/
def containerPoly (xl yl : ℚ) : Pgon := [(0, 0), (xl, 0), (xl, yl), (0, yl)]

/-- The utilization percentage of lines 129-131 of the source:
`sum(shape.area) / container.area * 100`. -/
def utilizationOf (placed : List Pgon) (container : Pgon) : ℚ :=
  ((placed.map areaB).sum / areaB container) * 100

/-- The error taxonomy of the spec surfaced by the shape-building entry point. -/
inductive LayoutError : Type
  | insufficientPoints : LayoutError
deriving DecidableEq

/-- `draw_full_convex_hull(points, x_limit, y_limit)`: rejects fewer than 3
points before any geometry is attempted (the `messagebox.showerror` + `return`
of the source, modelled as an error result); otherwise builds the base shape
from the convex hull of the points (the hull computation is the external
collaborator `scipy.spatial.ConvexHull`, passed here as the function `hull`),
builds the container and the fixed angle list, runs `place_shapes` with
`grid_step = 10`, and reports the placed shapes and the utilization. -/
def draw_full_convex_hull (hull : List Pt → Pgon) (points : List Pt)
    (x_limit y_limit : ℚ) :
    Except LayoutError (Pgon × List Angle × List Pgon × ℚ) :=
  if points.length < 3 then Except.error LayoutError.insufficientPoints
  else
    let hull_points := hull points
    let original_shape := hull_points
    let container := containerPoly x_limit y_limit
    let angles := [Angle.a0, Angle.a90, Angle.a180, Angle.a270]
    let placed_shapes := place_shapes container original_shape angles 10
    Except.ok (container, angles, placed_shapes, utilizationOf placed_shapes container)

/-- The unit square of end-to-end scenario 1. -/
def unitSquare : Pgon := [(0, 0), (1, 0), (1, 1), (0, 1)]

/-- Real embedding of a rational point. -/
def toReal (p : Pt) : ℝ × ℝ := ((p.1 : ℝ), (p.2 : ℝ))

/-- The vertex set of a polygon in the real plane. -/
def vertexSet (P : Pgon) : Set (ℝ × ℝ) := {x | ∃ q ∈ P, toReal q = x}

/-- The point set a polygon denotes: the convex hull of its vertices
(the program's polygons are convex, being hulls, rotations and translations
of hulls). -/
def polySet (P : Pgon) : Set (ℝ × ℝ) := convexHull ℝ (vertexSet P)

/-- The closed rectangular region of the `W × H` container. -/
def rectSet (W H : ℚ) : Set (ℝ × ℝ) :=
  Set.Icc (0 : ℝ) (W : ℝ) ×ˢ Set.Icc (0 : ℝ) (H : ℝ)

/-! ## Characterization of the placement predicate -/

/-- The overlap scan of `can_place` succeeds exactly when the candidate
intersects no member of the placed list (membership-based, hence independent
of the traversal order). -/
theorem overlapScan_eq_true_iff (cand : Pgon) (l : List Pgon) :
    overlapScan cand l = true ↔ ∀ p ∈ l, intersectsB cand p = false := by
  induction l with
  | nil => simp [overlapScan]
  | cons e rest ih =>
    by_cases h : intersectsB cand e
    · simp [overlapScan, h]
    · simp only [overlapScan, h, if_false, Bool.false_eq_true, ih, List.mem_cons]
      constructor
      · intro hall p hp
        rcases hp with rfl | hp
        · simpa using h
        · exact hall p hp
      · intro hall p hp
        exact hall p (Or.inr hp)

/-- `can_place` succeeds exactly when the candidate is contained in the
container and intersects no placed shape. -/
theorem can_place_eq_true_iff (cand : Pgon) (placed : List Pgon) (bounds : Pgon) :
    can_place cand placed bounds = true ↔
      (containsB bounds cand = true ∧ ∀ p ∈ placed, intersectsB cand p = false) := by
  by_cases h : containsB bounds cand
  · simp [can_place, h, overlapScan_eq_true_iff]
  · simp [can_place, h]

/-- The trial loop at one anchor returns exactly the first translated rotated
variant, in the dict's angle order, that the predicate accepts. -/
theorem tryAnglesAt_eq_find (rotated : List (Angle × Pgon)) (x y : ℚ)
    (placed : List Pgon) (container : Pgon) :
    tryAnglesAt rotated x y placed container =
      (rotated.map (fun ar => translateP ar.2 x y)).find?
        (fun c => can_place c placed container) := by
  induction rotated with
  | nil => rfl
  | cons ar rest ih =>
    by_cases h : can_place (translateP ar.2 x y) placed container
    · simp [tryAnglesAt, h, List.find?_cons_of_pos]
    · simp only [tryAnglesAt, h, if_false, List.map_cons]
      rw [List.find?_cons_of_neg _ (by simpa using h)]
      exact ih

/-- C3: the placement predicate returns false when the container does not
fully contain the candidate (boundary-inclusively), returns false when the
candidate intersects any member of the placed list (any single intersecting
existing shape disqualifies it, independently of its position in the list),
and returns true otherwise; the embedding is a pure function, so the call
mutates none of its inputs. -/
theorem C3_can_place_spec (candidate : Pgon) (placed : List Pgon) (bounds : Pgon) :
    can_place candidate placed bounds = true ↔
      (containsB bounds candidate = true ∧
        ∀ p ∈ placed, intersectsB candidate p = false) :=
  can_place_eq_true_iff candidate placed bounds

/-- C6: the shape-building entry point rejects fewer than 3 points with
`InsufficientPointsError`; the error result is produced before any hull,
container, rotation-set or placement computation, so no artifact of the run
exists. -/
theorem C6_insufficient_points (hull : List Pt → Pgon) (points : List Pt)
    (x_limit y_limit : ℚ) (h : points.length < 3) :
    draw_full_convex_hull hull points x_limit y_limit =
      Except.error LayoutError.insufficientPoints := by
  simp [draw_full_convex_hull, h]

/-- Witness for C6: two points are rejected. -/
theorem C6_insufficient_points_witness :
    ([((0 : ℚ), (0 : ℚ)), ((1 : ℚ), (1 : ℚ))].length < 3) ∧
      draw_full_convex_hull (fun ps => ps) [((0 : ℚ), (0 : ℚ)), ((1 : ℚ), (1 : ℚ))] 1000 200 =
        Except.error LayoutError.insufficientPoints :=
  ⟨by decide, C6_insufficient_points (fun ps => ps) _ 1000 200 (by decide)⟩

/-- C7: at each anchor `(x, y)` the engine appends to the placed list the first
translated rotated variant accepted by the predicate — the variants being tried
in the declaration order of the angle list (the rotation dict enumerates the
angles in first-occurrence order) — and tries no further angle; when no variant
is accepted the placed list is unchanged; in particular at most one shape is
placed per anchor. -/
theorem C7_per_anchor_acceptance (container shape : Pgon) (angles : List Angle)
    (placed : List Pgon) (x y : ℚ) :
    ((create_rotated_shapes shape angles).map Prod.fst = dedupFirst angles) ∧
    placeAtAnchor container (create_rotated_shapes shape angles) placed (x, y) =
      placed ++
        (((create_rotated_shapes shape angles).map (fun ar => translateP ar.2 x y)).find?
          (fun c => can_place c placed container)).toList ∧
    (placeAtAnchor container (create_rotated_shapes shape angles) placed (x, y)).length ≤
      placed.length + 1 := by
  refine ⟨by simp [create_rotated_shapes, Function.comp_def], ?_, ?_⟩
  · unfold placeAtAnchor
    rw [tryAnglesAt_eq_find]
    cases ((create_rotated_shapes shape angles).map (fun ar => translateP ar.2 x y)).find?
        (fun c => can_place c placed container) with
    | none => simp
    | some c => simp
  · unfold placeAtAnchor
    cases tryAnglesAt (create_rotated_shapes shape angles) x y placed container with
    | none => simp
    | some c => simp

/-! ## Rotation set -/

/-- Lookup of an angle in the rotation dict (Python `rotated_shapes[angle]`). -/
def lookupAngle (a : Angle) : List (Angle × Pgon) → Option Pgon
  | [] => none
  | bp :: rest => if a = bp.1 then some bp.2 else lookupAngle a rest

/-- Looking up a key in an association list built by mapping a function over
the key list yields the function's value at that key. -/
theorem lookupAngle_map (f : Angle → Pgon) (a : Angle) (l : List Angle) (h : a ∈ l) :
    lookupAngle a (l.map (fun b => (b, f b))) = some (f a) := by
  induction l with
  | nil => cases h
  | cons b rest ih =>
    by_cases hab : a = b
    · subst hab; simp [lookupAngle]
    · have : a ∈ rest := by
        rcases List.mem_cons.mp h with h1 | h1
        · exact absurd h1 hab
        · exact h1
      simpa [lookupAngle, hab] using ih this

/-- An unseen member of the input list survives the deduplication helper. -/
theorem mem_dedupFirstAux {a : Angle} :
    ∀ (l seen : List Angle), a ∈ l → a ∉ seen → a ∈ dedupFirstAux seen l := by
  intro l
  induction l with
  | nil => intro seen h _; cases h
  | cons b rest ih =>
    intro seen h hns
    by_cases hb : b ∈ seen
    · rw [dedupFirstAux, if_pos hb]
      rcases List.mem_cons.mp h with rfl | h1
      · exact absurd hb hns
      · exact ih seen h1 hns
    · rw [dedupFirstAux, if_neg hb]
      by_cases hab : a = b
      · exact hab ▸ List.mem_cons_self _ _
      · rcases List.mem_cons.mp h with h1 | h1
        · exact absurd h1 hab
        · refine List.mem_cons_of_mem _ (ih (b :: seen) h1 ?_)
          intro hmem
          rcases List.mem_cons.mp hmem with h2 | h2
          · exact hab h2
          · exact hns h2

/-- Deduplication preserves membership. -/
theorem mem_dedupFirst {a : Angle} : ∀ l : List Angle, a ∈ l → a ∈ dedupFirst l :=
  fun l h => mem_dedupFirstAux l [] h (List.not_mem_nil a)

/-- Rotating by 0° is the identity on the vertex list (exactly, the embedding
using exact rational arithmetic where the source rounds in floating point). -/
theorem rotateShape_zero (shape : Pgon) : rotateShape shape Angle.a0 = shape := by
  unfold rotateShape
  have h : ∀ p : Pt,
      ((centroidOf shape).1 + cosA Angle.a0 * (p.1 - (centroidOf shape).1) -
          sinA Angle.a0 * (p.2 - (centroidOf shape).2),
        (centroidOf shape).2 + sinA Angle.a0 * (p.1 - (centroidOf shape).1) +
          cosA Angle.a0 * (p.2 - (centroidOf shape).2)) = p := by
    intro p
    have h1 : (centroidOf shape).1 + cosA Angle.a0 * (p.1 - (centroidOf shape).1) -
        sinA Angle.a0 * (p.2 - (centroidOf shape).2) = p.1 := by
      simp [cosA, sinA]
    have h2 : (centroidOf shape).2 + sinA Angle.a0 * (p.1 - (centroidOf shape).1) +
        cosA Angle.a0 * (p.2 - (centroidOf shape).2) = p.2 := by
      simp [cosA, sinA]
    rw [h1, h2]
  simp only [h]
  exact List.map_id shape

/-- C8: for every base polygon, the rotation-set entry for angle 0° is the
base polygon itself — in the exact rational embedding the vertex lists are
equal on the nose (hence within any floating-point tolerance), and the area
and the centroid are unchanged. -/
theorem C8_rotation_identity (shape : Pgon) (angles : List Angle)
    (h : Angle.a0 ∈ angles) :
    lookupAngle Angle.a0 (create_rotated_shapes shape angles) =
        some (rotateShape shape Angle.a0) ∧
      rotateShape shape Angle.a0 = shape ∧
      areaB (rotateShape shape Angle.a0) = areaB shape ∧
      centroidOf (rotateShape shape Angle.a0) = centroidOf shape := by
  refine ⟨?_, rotateShape_zero shape, by rw [rotateShape_zero], by rw [rotateShape_zero]⟩
  exact lookupAngle_map (rotateShape shape) Angle.a0 (dedupFirst angles)
    (mem_dedupFirst angles h)

/-- Witness for C8 at the unit square with the program's angle list. -/
theorem C8_rotation_identity_witness :
    Angle.a0 ∈ [Angle.a0, Angle.a90, Angle.a180, Angle.a270] ∧
      (lookupAngle Angle.a0
          (create_rotated_shapes unitSquare [Angle.a0, Angle.a90, Angle.a180, Angle.a270]) =
        some (rotateShape unitSquare Angle.a0) ∧
      rotateShape unitSquare Angle.a0 = unitSquare ∧
      areaB (rotateShape unitSquare Angle.a0) = areaB unitSquare ∧
      centroidOf (rotateShape unitSquare Angle.a0) = centroidOf unitSquare) :=
  ⟨by decide, C8_rotation_identity unitSquare [Angle.a0, Angle.a90, Angle.a180, Angle.a270]
    (by decide)⟩

/-! ## Anchor count -/

/-- The number of grid anchors `place_shapes` evaluates over a container's
bounding box at a given step. -/
def anchorCount (container : Pgon) (step : ℚ) : ℕ :=
  let b := boundsOf container
  (gridAnchors b.1 b.2.1 b.2.2.1 b.2.2.2 step).length

/-- The anchor list is the product of the two arange sweeps. -/
theorem gridAnchors_length (x_min y_min x_max y_max step : ℚ) :
    (gridAnchors x_min y_min x_max y_max step).length =
      (arange x_min x_max step).length * (arange y_min y_max step).length := by
  unfold gridAnchors
  induction arange x_min x_max step with
  | nil => simp
  | cons a l ih => simp [List.flatMap_cons, ih, Nat.succ_mul, Nat.add_comm]

/-- Length of an arange sweep. -/
theorem arange_length (lo hi step : ℚ) :
    (arange lo hi step).length = Int.toNat ⌈(hi - lo) / step⌉ := by
  unfold arange
  rw [List.length_map, List.length_range]

/-- A smaller positive step never yields a shorter arange sweep. -/
theorem arange_length_mono (lo hi s1 s2 : ℚ) (h2 : 0 < s2) (hle : s2 ≤ s1) :
    (arange lo hi s1).length ≤ (arange lo hi s2).length := by
  rw [arange_length, arange_length]
  have h1 : 0 < s1 := lt_of_lt_of_le h2 hle
  rcases le_or_lt 0 (hi - lo) with hd | hd
  · have hdiv : (hi - lo) / s1 ≤ (hi - lo) / s2 := by gcongr
    exact Int.toNat_le_toNat (Int.ceil_le_ceil hdiv)
  · have hz : ⌈(hi - lo) / s1⌉ ≤ 0 := by
      have h0 : ((hi - lo) / s1 : ℚ) ≤ ((0 : ℤ) : ℚ) := by
        push_cast
        exact le_of_lt (div_neg_of_neg_of_pos hd h1)
      exact Int.ceil_le.mpr h0
    simp [Int.toNat_of_nonpos hz]

/-- C9: decreasing the grid step (holding the container fixed) never decreases
the number of candidate anchors the engine evaluates. -/
theorem C9_anchor_count_monotone (container : Pgon) (s1 s2 : ℚ)
    (h2 : 0 < s2) (hle : s2 ≤ s1) :
    anchorCount container s1 ≤ anchorCount container s2 := by
  unfold anchorCount
  rw [gridAnchors_length, gridAnchors_length]
  exact Nat.mul_le_mul
    (arange_length_mono _ _ _ _ h2 hle)
    (arange_length_mono _ _ _ _ h2 hle)

/-- Witness for C9: halving the step on the 10 × 10 container. -/
theorem C9_anchor_count_monotone_witness :
    (0 : ℚ) < 1 ∧ (1 : ℚ) ≤ 2 ∧
      anchorCount (containerPoly 10 10) 2 ≤ anchorCount (containerPoly 10 10) 1 :=
  ⟨by norm_num, by norm_num,
    C9_anchor_count_monotone (containerPoly 10 10) 2 1 (by norm_num) (by norm_num)⟩

/-! ## Semantics of the separating-axis test -/

/-- The real linear functional of an axis direction. -/
def projR (n : Pt) (x : ℝ × ℝ) : ℝ := (n.1 : ℝ) * x.1 + (n.2 : ℝ) * x.2

theorem isLinearMap_projR (n : Pt) : IsLinearMap ℝ (projR n) := by
  constructor
  · intro x y
    simp only [projR, Prod.fst_add, Prod.snd_add]
    ring
  · intro c x
    simp only [projR, Prod.smul_fst, Prod.smul_snd, smul_eq_mul]
    ring

theorem projR_toReal (n q : Pt) : projR n (toReal q) = ((projAxis n q : ℚ) : ℝ) := by
  simp only [projR, toReal, projAxis]
  push_cast
  ring

/-- Minimum of a list of rationals below a seed value. -/
def listMinQ (a : ℚ) (l : List ℚ) : ℚ := l.foldl min a

theorem listMinQ_le_init : ∀ (l : List ℚ) (a : ℚ), listMinQ a l ≤ a := by
  intro l
  induction l with
  | nil => intro a; exact le_refl a
  | cons b rest ih =>
    intro a
    exact le_trans (ih (min a b)) (min_le_left a b)

theorem listMinQ_le_mem : ∀ (l : List ℚ) (a x : ℚ), x ∈ l → listMinQ a l ≤ x := by
  intro l
  induction l with
  | nil => intro a x hx; cases hx
  | cons b rest ih =>
    intro a x hx
    rcases List.mem_cons.mp hx with rfl | hx
    · exact le_trans (listMinQ_le_init rest (min a x)) (min_le_right a x)
    · exact ih (min a b) x hx

theorem listMinQ_mem_or : ∀ (l : List ℚ) (a : ℚ), listMinQ a l = a ∨ listMinQ a l ∈ l := by
  intro l
  induction l with
  | nil => intro a; exact Or.inl rfl
  | cons b rest ih =>
    intro a
    have hstep : listMinQ a (b :: rest) = listMinQ (min a b) rest := rfl
    rcases ih (min a b) with h | h
    · rcases le_total a b with hab | hab
      · exact Or.inl (by rw [hstep, h, min_eq_left hab])
      · exact Or.inr (List.mem_cons.mpr (Or.inl (by rw [hstep, h, min_eq_right hab])))
    · exact Or.inr (List.mem_cons.mpr (Or.inr (by rw [hstep]; exact h)))

theorem allLtB_iff (l1 l2 : List ℚ) :
    allLtB l1 l2 = true ↔ ∀ u ∈ l1, ∀ v ∈ l2, u < v := by
  simp [allLtB]

/-- Soundness of one strictly separating axis: the convex hulls of the two
vertex lists are disjoint. -/
theorem allLt_disjoint {n : Pt} {P Q : Pgon}
    (h : allLtB (P.map (projAxis n)) (Q.map (projAxis n)) = true) :
    polySet P ∩ polySet Q = ∅ := by
  have hlt : ∀ u ∈ P, ∀ v ∈ Q, projAxis n u < projAxis n v := by
    intro u hu v hv
    exact (allLtB_iff _ _).mp h _ (List.mem_map_of_mem _ hu) _ (List.mem_map_of_mem _ hv)
  cases hQ : Q with
  | nil =>
    have hv : vertexSet ([] : Pgon) = (∅ : Set (ℝ × ℝ)) := by
      ext x
      simp [vertexSet]
    have h0 : polySet ([] : Pgon) = ∅ := by
      rw [polySet, hv, convexHull_empty]
    rw [h0, Set.inter_empty]
  | cons v0 rest =>
    set c : ℚ := listMinQ (projAxis n v0) (rest.map (projAxis n)) with hc
    have hcQ : ∃ v ∈ Q, c = projAxis n v := by
      rcases listMinQ_mem_or (rest.map (projAxis n)) (projAxis n v0) with h1 | h1
      · exact ⟨v0, by rw [hQ]; exact List.mem_cons_self _ _, by rw [hc, h1]⟩
      · rcases List.mem_map.mp h1 with ⟨v, hv, hveq⟩
        exact ⟨v, by rw [hQ]; exact List.mem_cons_of_mem _ hv, by rw [hc, ← hveq]⟩
    have hcLB : ∀ v ∈ Q, c ≤ projAxis n v := by
      intro v hv
      rw [hQ] at hv
      rcases List.mem_cons.mp hv with rfl | hv
      · exact listMinQ_le_init _ _
      · exact listMinQ_le_mem _ _ _ (List.mem_map_of_mem _ hv)
    have hPsub : polySet P ⊆ {x | projR n x < (c : ℝ)} := by
      apply convexHull_min _ (convex_halfSpace_lt (isLinearMap_projR n) _)
      rintro x ⟨q, hq, rfl⟩
      rcases hcQ with ⟨v, hvQ, hvc⟩
      have : projAxis n q < c := hvc ▸ hlt q hq v hvQ
      rw [Set.mem_setOf_eq, projR_toReal]
      exact_mod_cast this
    have hQsub : polySet Q ⊆ {x | (c : ℝ) ≤ projR n x} := by
      apply convexHull_min _ (convex_halfSpace_ge (isLinearMap_projR n) _)
      rintro x ⟨q, hq, rfl⟩
      have : c ≤ projAxis n q := hcLB q hq
      rw [Set.mem_setOf_eq, projR_toReal]
      exact_mod_cast this
    apply Set.eq_empty_iff_forall_not_mem.mpr
    rintro x ⟨hxP, hxQ⟩
    have h1 : projR n x < (c : ℝ) := hPsub hxP
    have h2 : (c : ℝ) ≤ projR n x := hQsub (by rw [hQ]; exact hxQ)
    exact absurd h1 (not_lt.mpr h2)

/-- Soundness of the embedded `intersects` test: when it reports no
intersection, the two polygons (as closed convex regions) are disjoint —
they share not even a boundary point. -/
theorem intersectsB_false_disjoint {P Q : Pgon} (h : intersectsB P Q = false) :
    polySet P ∩ polySet Q = ∅ := by
  have hany : (normalsOf P ++ normalsOf Q).any (fun n => sepOnAxisB n P Q) = true := by
    by_contra hfalse
    have hb : (normalsOf P ++ normalsOf Q).any (fun n => sepOnAxisB n P Q) = false :=
      Bool.not_eq_true _ ▸ eq_false_of_ne_true hfalse
    rw [intersectsB, hb] at h
    exact absurd h (by simp)
  rcases List.any_eq_true.mp hany with ⟨n, _, hsep⟩
  rcases Bool.or_eq_true_iff.mp hsep with h1 | h1
  · exact allLt_disjoint h1
  · rw [Set.inter_comm]
    exact allLt_disjoint h1

/-! ## The placement invariant -/

/-- Invariant maintained by the greedy sweep: every placed shape passed the
containment test, and every shape placed later passed the intersection test
against every shape placed earlier. -/
def GoodList (container : Pgon) (l : List Pgon) : Prop :=
  (∀ p ∈ l, containsB container p = true) ∧
    l.Pairwise (fun p q => intersectsB q p = false)

theorem goodList_nil (container : Pgon) : GoodList container [] :=
  ⟨fun p hp => absurd hp (List.not_mem_nil p), List.Pairwise.nil⟩

/-- A successful anchor trial returns a candidate accepted by the predicate
against the current placed list. -/
theorem tryAnglesAt_some_can_place {rotated : List (Angle × Pgon)} {x y : ℚ}
    {placed : List Pgon} {container : Pgon} {c : Pgon}
    (h : tryAnglesAt rotated x y placed container = some c) :
    can_place c placed container = true := by
  rw [tryAnglesAt_eq_find] at h
  have hp := List.find?_some h
  simpa using hp

/-- One anchor step preserves the invariant. -/
theorem placeAtAnchor_good {container : Pgon} {rotated : List (Angle × Pgon)}
    {placed : List Pgon} {xy : ℚ × ℚ} (h : GoodList container placed) :
    GoodList container (placeAtAnchor container rotated placed xy) := by
  unfold placeAtAnchor
  cases e : tryAnglesAt rotated xy.1 xy.2 placed container with
  | none => exact h
  | some c =>
    have hcp := (can_place_eq_true_iff c placed container).mp
      (tryAnglesAt_some_can_place e)
    constructor
    · intro p hp
      rcases List.mem_append.mp hp with hp | hp
      · exact h.1 p hp
      · rcases List.mem_singleton.mp hp with rfl
        exact hcp.1
    · rw [List.pairwise_append]
      refine ⟨h.2, List.pairwise_singleton _ _, ?_⟩
      intro p hp q hq
      rcases List.mem_singleton.mp hq with rfl
      exact hcp.2 p hp

/-- The full greedy sweep preserves the invariant from any starting list. -/
theorem foldl_placeAtAnchor_good (container : Pgon) (rotated : List (Angle × Pgon))
    (anchors : List (ℚ × ℚ)) :
    ∀ init : List Pgon, GoodList container init →
      GoodList container (anchors.foldl (placeAtAnchor container rotated) init) := by
  induction anchors with
  | nil => intro init h; exact h
  | cons a rest ih =>
    intro init h
    exact ih (placeAtAnchor container rotated init a) (placeAtAnchor_good h)

/-- The output of `place_shapes` satisfies the invariant. -/
theorem place_shapes_good (container shape : Pgon) (angles : List Angle)
    (grid_step : ℚ) :
    GoodList container (place_shapes container shape angles grid_step) := by
  unfold place_shapes
  exact foldl_placeAtAnchor_good _ _ _ [] (goodList_nil container)

/-! ## Containment in the rectangular container -/

/-- The container region is convex. -/
theorem rectSet_convex (W H : ℚ) : Convex ℝ (rectSet W H) :=
  (convex_Icc _ _).prod (convex_Icc _ _)

/-- A polygon that passes the embedded containment test against the `W × H`
container polygon lies, as a convex region, inside the container rectangle. -/
theorem containsB_rect_subset {W H : ℚ} (hW : 0 < W) (hH : 0 < H) {P : Pgon}
    (h : containsB (containerPoly W H) P = true) : polySet P ⊆ rectSet W H := by
  apply convexHull_min _ (rectSet_convex W H)
  rintro x ⟨q, hq, rfl⟩
  have hpt : pointInPolyB q (containerPoly W H) = true :=
    List.all_eq_true.mp h q hq
  have hineq := List.all_eq_true.mp hpt
  have h1 : 0 ≤ edgeCross (((0 : ℚ), (0 : ℚ)), ((W : ℚ), (0 : ℚ))) q :=
    of_decide_eq_true
      (hineq (((0 : ℚ), (0 : ℚ)), ((W : ℚ), (0 : ℚ))) (by simp [cyclicPairs, containerPoly]))
  have h2 : 0 ≤ edgeCross (((W : ℚ), (0 : ℚ)), ((W : ℚ), (H : ℚ))) q :=
    of_decide_eq_true
      (hineq (((W : ℚ), (0 : ℚ)), ((W : ℚ), (H : ℚ))) (by simp [cyclicPairs, containerPoly]))
  have h3 : 0 ≤ edgeCross (((W : ℚ), (H : ℚ)), ((0 : ℚ), (H : ℚ))) q :=
    of_decide_eq_true
      (hineq (((W : ℚ), (H : ℚ)), ((0 : ℚ), (H : ℚ))) (by simp [cyclicPairs, containerPoly]))
  have h4 : 0 ≤ edgeCross (((0 : ℚ), (H : ℚ)), ((0 : ℚ), (0 : ℚ))) q :=
    of_decide_eq_true
      (hineq (((0 : ℚ), (H : ℚ)), ((0 : ℚ), (0 : ℚ))) (by simp [cyclicPairs, containerPoly]))
  rw [edgeCross] at h1 h2 h3 h4
  simp only at h1 h2 h3 h4
  have hy0 : 0 ≤ q.2 := by nlinarith
  have hyH : q.2 ≤ H := by nlinarith
  have hx0 : 0 ≤ q.1 := by nlinarith
  have hxW : q.1 ≤ W := by nlinarith
  simp only [rectSet, toReal, Set.mem_prod, Set.mem_Icc]
  refine ⟨⟨?_, ?_⟩, ?_, ?_⟩
  · exact_mod_cast hx0
  · exact_mod_cast hxW
  · exact_mod_cast hy0
  · exact_mod_cast hyH

/-- C1: every polygon returned by a run of the placement engine on a `W × H`
container is fully contained in the container region. -/
theorem C1_containment_invariant (W H : ℚ) (shape : Pgon) (angles : List Angle)
    (grid_step : ℚ) (hW : 0 < W) (hH : 0 < H) (hs : 0 < grid_step) :
    ∀ P ∈ place_shapes (containerPoly W H) shape angles grid_step,
      polySet P ⊆ rectSet W H := by
  intro P hP
  exact containsB_rect_subset hW hH
    ((place_shapes_good (containerPoly W H) shape angles grid_step).1 P hP)

/-- Witness for C1: the unit square packed in the 10 × 10 container at step 1. -/
theorem C1_containment_invariant_witness :
    (0 : ℚ) < 10 ∧ (0 : ℚ) < 10 ∧ (0 : ℚ) < 1 ∧
      ∀ P ∈ place_shapes (containerPoly 10 10) unitSquare [Angle.a0] 1,
        polySet P ⊆ rectSet 10 10 :=
  ⟨by norm_num, by norm_num, by norm_num,
    C1_containment_invariant 10 10 unitSquare [Angle.a0] 1
      (by norm_num) (by norm_num) (by norm_num)⟩

/-- C2: in every run of the placement engine, the interiors of any two
distinct placed polygons are disjoint. -/
theorem C2_non_overlap_invariant (container shape : Pgon) (angles : List Angle)
    (grid_step : ℚ) (hs : 0 < grid_step) :
    (place_shapes container shape angles grid_step).Pairwise
      (fun P Q => interior (polySet P) ∩ interior (polySet Q) = ∅) := by
  have h := (place_shapes_good container shape angles grid_step).2
  refine h.imp ?_
  intro P Q hPQ
  have hd : polySet Q ∩ polySet P = ∅ := intersectsB_false_disjoint hPQ
  apply Set.eq_empty_iff_forall_not_mem.mpr
  rintro x ⟨hxP, hxQ⟩
  have hx : x ∈ polySet Q ∩ polySet P :=
    ⟨interior_subset hxQ, interior_subset hxP⟩
  rw [hd] at hx
  exact hx

/-- Witness for C2: the unit square packed in the 10 × 10 container at step 1. -/
theorem C2_non_overlap_invariant_witness :
    (0 : ℚ) < 1 ∧
      (place_shapes (containerPoly 10 10) unitSquare [Angle.a0] 1).Pairwise
        (fun P Q => interior (polySet P) ∩ interior (polySet Q) = ∅) :=
  ⟨by norm_num,
    C2_non_overlap_invariant (containerPoly 10 10) unitSquare [Angle.a0] 1 (by norm_num)⟩

/-- C10: in every run of the placement engine, any two distinct placed
polygons have empty intersection as closed regions — they share not even a
boundary point, the predicate rejecting mere boundary contact. -/
theorem C10_strict_pairwise_disjoint (container shape : Pgon) (angles : List Angle)
    (grid_step : ℚ) (hs : 0 < grid_step) :
    (place_shapes container shape angles grid_step).Pairwise
      (fun P Q => polySet P ∩ polySet Q = ∅) := by
  have h := (place_shapes_good container shape angles grid_step).2
  refine h.imp ?_
  intro P Q hPQ
  rw [Set.inter_comm]
  exact intersectsB_false_disjoint hPQ

/-- Witness for C10: the 2 × 2 container at step 1. -/
theorem C10_strict_pairwise_disjoint_witness :
    (0 : ℚ) < 1 ∧
      (place_shapes (containerPoly 2 2) unitSquare [Angle.a0] 1).Pairwise
        (fun P Q => polySet P ∩ polySet Q = ∅) :=
  ⟨by norm_num,
    C10_strict_pairwise_disjoint (containerPoly 2 2) unitSquare [Angle.a0] 1 (by norm_num)⟩

/-! ## End-to-end scenario 1 -/

set_option maxHeartbeats 4000000 in
/-- The run of scenario 1 (unit square, 10 × 10 container, step 1, angles {0})
computed column by column: the engine places 25 squares, at the anchors with
even coordinates — the predicate uses `intersects`, which rejects boundary
contact, so accepted squares are spaced two units apart. -/
theorem scenario1_run :
    place_shapes (containerPoly 10 10) unitSquare [Angle.a0] 1 =
      [[((0 : ℚ), (0 : ℚ)), ((1 : ℚ), (0 : ℚ)), ((1 : ℚ), (1 : ℚ)), ((0 : ℚ), (1 : ℚ))],
      [((0 : ℚ), (2 : ℚ)), ((1 : ℚ), (2 : ℚ)), ((1 : ℚ), (3 : ℚ)), ((0 : ℚ), (3 : ℚ))],
      [((0 : ℚ), (4 : ℚ)), ((1 : ℚ), (4 : ℚ)), ((1 : ℚ), (5 : ℚ)), ((0 : ℚ), (5 : ℚ))],
      [((0 : ℚ), (6 : ℚ)), ((1 : ℚ), (6 : ℚ)), ((1 : ℚ), (7 : ℚ)), ((0 : ℚ), (7 : ℚ))],
      [((0 : ℚ), (8 : ℚ)), ((1 : ℚ), (8 : ℚ)), ((1 : ℚ), (9 : ℚ)), ((0 : ℚ), (9 : ℚ))],
      [((2 : ℚ), (0 : ℚ)), ((3 : ℚ), (0 : ℚ)), ((3 : ℚ), (1 : ℚ)), ((2 : ℚ), (1 : ℚ))],
      [((2 : ℚ), (2 : ℚ)), ((3 : ℚ), (2 : ℚ)), ((3 : ℚ), (3 : ℚ)), ((2 : ℚ), (3 : ℚ))],
      [((2 : ℚ), (4 : ℚ)), ((3 : ℚ), (4 : ℚ)), ((3 : ℚ), (5 : ℚ)), ((2 : ℚ), (5 : ℚ))],
      [((2 : ℚ), (6 : ℚ)), ((3 : ℚ), (6 : ℚ)), ((3 : ℚ), (7 : ℚ)), ((2 : ℚ), (7 : ℚ))],
      [((2 : ℚ), (8 : ℚ)), ((3 : ℚ), (8 : ℚ)), ((3 : ℚ), (9 : ℚ)), ((2 : ℚ), (9 : ℚ))],
      [((4 : ℚ), (0 : ℚ)), ((5 : ℚ), (0 : ℚ)), ((5 : ℚ), (1 : ℚ)), ((4 : ℚ), (1 : ℚ))],
      [((4 : ℚ), (2 : ℚ)), ((5 : ℚ), (2 : ℚ)), ((5 : ℚ), (3 : ℚ)), ((4 : ℚ), (3 : ℚ))],
      [((4 : ℚ), (4 : ℚ)), ((5 : ℚ), (4 : ℚ)), ((5 : ℚ), (5 : ℚ)), ((4 : ℚ), (5 : ℚ))],
      [((4 : ℚ), (6 : ℚ)), ((5 : ℚ), (6 : ℚ)), ((5 : ℚ), (7 : ℚ)), ((4 : ℚ), (7 : ℚ))],
      [((4 : ℚ), (8 : ℚ)), ((5 : ℚ), (8 : ℚ)), ((5 : ℚ), (9 : ℚ)), ((4 : ℚ), (9 : ℚ))],
      [((6 : ℚ), (0 : ℚ)), ((7 : ℚ), (0 : ℚ)), ((7 : ℚ), (1 : ℚ)), ((6 : ℚ), (1 : ℚ))],
      [((6 : ℚ), (2 : ℚ)), ((7 : ℚ), (2 : ℚ)), ((7 : ℚ), (3 : ℚ)), ((6 : ℚ), (3 : ℚ))],
      [((6 : ℚ), (4 : ℚ)), ((7 : ℚ), (4 : ℚ)), ((7 : ℚ), (5 : ℚ)), ((6 : ℚ), (5 : ℚ))],
      [((6 : ℚ), (6 : ℚ)), ((7 : ℚ), (6 : ℚ)), ((7 : ℚ), (7 : ℚ)), ((6 : ℚ), (7 : ℚ))],
      [((6 : ℚ), (8 : ℚ)), ((7 : ℚ), (8 : ℚ)), ((7 : ℚ), (9 : ℚ)), ((6 : ℚ), (9 : ℚ))],
      [((8 : ℚ), (0 : ℚ)), ((9 : ℚ), (0 : ℚ)), ((9 : ℚ), (1 : ℚ)), ((8 : ℚ), (1 : ℚ))],
      [((8 : ℚ), (2 : ℚ)), ((9 : ℚ), (2 : ℚ)), ((9 : ℚ), (3 : ℚ)), ((8 : ℚ), (3 : ℚ))],
      [((8 : ℚ), (4 : ℚ)), ((9 : ℚ), (4 : ℚ)), ((9 : ℚ), (5 : ℚ)), ((8 : ℚ), (5 : ℚ))],
      [((8 : ℚ), (6 : ℚ)), ((9 : ℚ), (6 : ℚ)), ((9 : ℚ), (7 : ℚ)), ((8 : ℚ), (7 : ℚ))],
      [((8 : ℚ), (8 : ℚ)), ((9 : ℚ), (8 : ℚ)), ((9 : ℚ), (9 : ℚ)), ((8 : ℚ), (9 : ℚ))]] := by
  have h0 : place_shapes (containerPoly 10 10) unitSquare [Angle.a0] 1 =
      (gridAnchors 0 0 10 10 1).foldl
        (placeAtAnchor (containerPoly 10 10) (create_rotated_shapes unitSquare [Angle.a0])) [] := by
    with_unfolding_all rfl
  have hanch : gridAnchors 0 0 10 10 1 =
      [((0 : ℚ), (0 : ℚ)), ((0 : ℚ), (1 : ℚ)), ((0 : ℚ), (2 : ℚ)), ((0 : ℚ), (3 : ℚ)), ((0 : ℚ), (4 : ℚ)), ((0 : ℚ), (5 : ℚ)), ((0 : ℚ), (6 : ℚ)), ((0 : ℚ), (7 : ℚ)), ((0 : ℚ), (8 : ℚ)), ((0 : ℚ), (9 : ℚ))] ++ ([((1 : ℚ), (0 : ℚ)), ((1 : ℚ), (1 : ℚ)), ((1 : ℚ), (2 : ℚ)), ((1 : ℚ), (3 : ℚ)), ((1 : ℚ), (4 : ℚ)), ((1 : ℚ), (5 : ℚ)), ((1 : ℚ), (6 : ℚ)), ((1 : ℚ), (7 : ℚ)), ((1 : ℚ), (8 : ℚ)), ((1 : ℚ), (9 : ℚ))] ++ ([((2 : ℚ), (0 : ℚ)), ((2 : ℚ), (1 : ℚ)), ((2 : ℚ), (2 : ℚ)), ((2 : ℚ), (3 : ℚ)), ((2 : ℚ), (4 : ℚ)), ((2 : ℚ), (5 : ℚ)), ((2 : ℚ), (6 : ℚ)), ((2 : ℚ), (7 : ℚ)), ((2 : ℚ), (8 : ℚ)), ((2 : ℚ), (9 : ℚ))] ++ ([((3 : ℚ), (0 : ℚ)), ((3 : ℚ), (1 : ℚ)), ((3 : ℚ), (2 : ℚ)), ((3 : ℚ), (3 : ℚ)), ((3 : ℚ), (4 : ℚ)), ((3 : ℚ), (5 : ℚ)), ((3 : ℚ), (6 : ℚ)), ((3 : ℚ), (7 : ℚ)), ((3 : ℚ), (8 : ℚ)), ((3 : ℚ), (9 : ℚ))] ++ ([((4 : ℚ), (0 : ℚ)), ((4 : ℚ), (1 : ℚ)), ((4 : ℚ), (2 : ℚ)), ((4 : ℚ), (3 : ℚ)), ((4 : ℚ), (4 : ℚ)), ((4 : ℚ), (5 : ℚ)), ((4 : ℚ), (6 : ℚ)), ((4 : ℚ), (7 : ℚ)), ((4 : ℚ), (8 : ℚ)), ((4 : ℚ), (9 : ℚ))] ++ ([((5 : ℚ), (0 : ℚ)), ((5 : ℚ), (1 : ℚ)), ((5 : ℚ), (2 : ℚ)), ((5 : ℚ), (3 : ℚ)), ((5 : ℚ), (4 : ℚ)), ((5 : ℚ), (5 : ℚ)), ((5 : ℚ), (6 : ℚ)), ((5 : ℚ), (7 : ℚ)), ((5 : ℚ), (8 : ℚ)), ((5 : ℚ), (9 : ℚ))] ++ ([((6 : ℚ), (0 : ℚ)), ((6 : ℚ), (1 : ℚ)), ((6 : ℚ), (2 : ℚ)), ((6 : ℚ), (3 : ℚ)), ((6 : ℚ), (4 : ℚ)), ((6 : ℚ), (5 : ℚ)), ((6 : ℚ), (6 : ℚ)), ((6 : ℚ), (7 : ℚ)), ((6 : ℚ), (8 : ℚ)), ((6 : ℚ), (9 : ℚ))] ++ ([((7 : ℚ), (0 : ℚ)), ((7 : ℚ), (1 : ℚ)), ((7 : ℚ), (2 : ℚ)), ((7 : ℚ), (3 : ℚ)), ((7 : ℚ), (4 : ℚ)), ((7 : ℚ), (5 : ℚ)), ((7 : ℚ), (6 : ℚ)), ((7 : ℚ), (7 : ℚ)), ((7 : ℚ), (8 : ℚ)), ((7 : ℚ), (9 : ℚ))] ++ ([((8 : ℚ), (0 : ℚ)), ((8 : ℚ), (1 : ℚ)), ((8 : ℚ), (2 : ℚ)), ((8 : ℚ), (3 : ℚ)), ((8 : ℚ), (4 : ℚ)), ((8 : ℚ), (5 : ℚ)), ((8 : ℚ), (6 : ℚ)), ((8 : ℚ), (7 : ℚ)), ((8 : ℚ), (8 : ℚ)), ((8 : ℚ), (9 : ℚ))] ++ ([((9 : ℚ), (0 : ℚ)), ((9 : ℚ), (1 : ℚ)), ((9 : ℚ), (2 : ℚ)), ((9 : ℚ), (3 : ℚ)), ((9 : ℚ), (4 : ℚ)), ((9 : ℚ), (5 : ℚ)), ((9 : ℚ), (6 : ℚ)), ((9 : ℚ), (7 : ℚ)), ((9 : ℚ), (8 : ℚ)), ((9 : ℚ), (9 : ℚ))]))))))))) := by
    decide!
  have hc0 : List.foldl
      (placeAtAnchor (containerPoly 10 10) (create_rotated_shapes unitSquare [Angle.a0]))
      []
      [((0 : ℚ), (0 : ℚ)), ((0 : ℚ), (1 : ℚ)), ((0 : ℚ), (2 : ℚ)), ((0 : ℚ), (3 : ℚ)), ((0 : ℚ), (4 : ℚ)), ((0 : ℚ), (5 : ℚ)), ((0 : ℚ), (6 : ℚ)), ((0 : ℚ), (7 : ℚ)), ((0 : ℚ), (8 : ℚ)), ((0 : ℚ), (9 : ℚ))] =
      [[((0 : ℚ), (0 : ℚ)), ((1 : ℚ), (0 : ℚ)), ((1 : ℚ), (1 : ℚ)), ((0 : ℚ), (1 : ℚ))],
      [((0 : ℚ), (2 : ℚ)), ((1 : ℚ), (2 : ℚ)), ((1 : ℚ), (3 : ℚ)), ((0 : ℚ), (3 : ℚ))],
      [((0 : ℚ), (4 : ℚ)), ((1 : ℚ), (4 : ℚ)), ((1 : ℚ), (5 : ℚ)), ((0 : ℚ), (5 : ℚ))],
      [((0 : ℚ), (6 : ℚ)), ((1 : ℚ), (6 : ℚ)), ((1 : ℚ), (7 : ℚ)), ((0 : ℚ), (7 : ℚ))],
      [((0 : ℚ), (8 : ℚ)), ((1 : ℚ), (8 : ℚ)), ((1 : ℚ), (9 : ℚ)), ((0 : ℚ), (9 : ℚ))]] := by
    decide!
  have hc1 : List.foldl
      (placeAtAnchor (containerPoly 10 10) (create_rotated_shapes unitSquare [Angle.a0]))
      [[((0 : ℚ), (0 : ℚ)), ((1 : ℚ), (0 : ℚ)), ((1 : ℚ), (1 : ℚ)), ((0 : ℚ), (1 : ℚ))],
      [((0 : ℚ), (2 : ℚ)), ((1 : ℚ), (2 : ℚ)), ((1 : ℚ), (3 : ℚ)), ((0 : ℚ), (3 : ℚ))],
      [((0 : ℚ), (4 : ℚ)), ((1 : ℚ), (4 : ℚ)), ((1 : ℚ), (5 : ℚ)), ((0 : ℚ), (5 : ℚ))],
      [((0 : ℚ), (6 : ℚ)), ((1 : ℚ), (6 : ℚ)), ((1 : ℚ), (7 : ℚ)), ((0 : ℚ), (7 : ℚ))],
      [((0 : ℚ), (8 : ℚ)), ((1 : ℚ), (8 : ℚ)), ((1 : ℚ), (9 : ℚ)), ((0 : ℚ), (9 : ℚ))]]
      [((1 : ℚ), (0 : ℚ)), ((1 : ℚ), (1 : ℚ)), ((1 : ℚ), (2 : ℚ)), ((1 : ℚ), (3 : ℚ)), ((1 : ℚ), (4 : ℚ)), ((1 : ℚ), (5 : ℚ)), ((1 : ℚ), (6 : ℚ)), ((1 : ℚ), (7 : ℚ)), ((1 : ℚ), (8 : ℚ)), ((1 : ℚ), (9 : ℚ))] =
      [[((0 : ℚ), (0 : ℚ)), ((1 : ℚ), (0 : ℚ)), ((1 : ℚ), (1 : ℚ)), ((0 : ℚ), (1 : ℚ))],
      [((0 : ℚ), (2 : ℚ)), ((1 : ℚ), (2 : ℚ)), ((1 : ℚ), (3 : ℚ)), ((0 : ℚ), (3 : ℚ))],
      [((0 : ℚ), (4 : ℚ)), ((1 : ℚ), (4 : ℚ)), ((1 : ℚ), (5 : ℚ)), ((0 : ℚ), (5 : ℚ))],
      [((0 : ℚ), (6 : ℚ)), ((1 : ℚ), (6 : ℚ)), ((1 : ℚ), (7 : ℚ)), ((0 : ℚ), (7 : ℚ))],
      [((0 : ℚ), (8 : ℚ)), ((1 : ℚ), (8 : ℚ)), ((1 : ℚ), (9 : ℚ)), ((0 : ℚ), (9 : ℚ))]] := by
    decide!
  have hc2 : List.foldl
      (placeAtAnchor (containerPoly 10 10) (create_rotated_shapes unitSquare [Angle.a0]))
      [[((0 : ℚ), (0 : ℚ)), ((1 : ℚ), (0 : ℚ)), ((1 : ℚ), (1 : ℚ)), ((0 : ℚ), (1 : ℚ))],
      [((0 : ℚ), (2 : ℚ)), ((1 : ℚ), (2 : ℚ)), ((1 : ℚ), (3 : ℚ)), ((0 : ℚ), (3 : ℚ))],
      [((0 : ℚ), (4 : ℚ)), ((1 : ℚ), (4 : ℚ)), ((1 : ℚ), (5 : ℚ)), ((0 : ℚ), (5 : ℚ))],
      [((0 : ℚ), (6 : ℚ)), ((1 : ℚ), (6 : ℚ)), ((1 : ℚ), (7 : ℚ)), ((0 : ℚ), (7 : ℚ))],
      [((0 : ℚ), (8 : ℚ)), ((1 : ℚ), (8 : ℚ)), ((1 : ℚ), (9 : ℚ)), ((0 : ℚ), (9 : ℚ))]]
      [((2 : ℚ), (0 : ℚ)), ((2 : ℚ), (1 : ℚ)), ((2 : ℚ), (2 : ℚ)), ((2 : ℚ), (3 : ℚ)), ((2 : ℚ), (4 : ℚ)), ((2 : ℚ), (5 : ℚ)), ((2 : ℚ), (6 : ℚ)), ((2 : ℚ), (7 : ℚ)), ((2 : ℚ), (8 : ℚ)), ((2 : ℚ), (9 : ℚ))] =
      [[((0 : ℚ), (0 : ℚ)), ((1 : ℚ), (0 : ℚ)), ((1 : ℚ), (1 : ℚ)), ((0 : ℚ), (1 : ℚ))],
      [((0 : ℚ), (2 : ℚ)), ((1 : ℚ), (2 : ℚ)), ((1 : ℚ), (3 : ℚ)), ((0 : ℚ), (3 : ℚ))],
      [((0 : ℚ), (4 : ℚ)), ((1 : ℚ), (4 : ℚ)), ((1 : ℚ), (5 : ℚ)), ((0 : ℚ), (5 : ℚ))],
      [((0 : ℚ), (6 : ℚ)), ((1 : ℚ), (6 : ℚ)), ((1 : ℚ), (7 : ℚ)), ((0 : ℚ), (7 : ℚ))],
      [((0 : ℚ), (8 : ℚ)), ((1 : ℚ), (8 : ℚ)), ((1 : ℚ), (9 : ℚ)), ((0 : ℚ), (9 : ℚ))],
      [((2 : ℚ), (0 : ℚ)), ((3 : ℚ), (0 : ℚ)), ((3 : ℚ), (1 : ℚ)), ((2 : ℚ), (1 : ℚ))],
      [((2 : ℚ), (2 : ℚ)), ((3 : ℚ), (2 : ℚ)), ((3 : ℚ), (3 : ℚ)), ((2 : ℚ), (3 : ℚ))],
      [((2 : ℚ), (4 : ℚ)), ((3 : ℚ), (4 : ℚ)), ((3 : ℚ), (5 : ℚ)), ((2 : ℚ), (5 : ℚ))],
      [((2 : ℚ), (6 : ℚ)), ((3 : ℚ), (6 : ℚ)), ((3 : ℚ), (7 : ℚ)), ((2 : ℚ), (7 : ℚ))],
      [((2 : ℚ), (8 : ℚ)), ((3 : ℚ), (8 : ℚ)), ((3 : ℚ), (9 : ℚ)), ((2 : ℚ), (9 : ℚ))]] := by
    decide!
  have hc3 : List.foldl
      (placeAtAnchor (containerPoly 10 10) (create_rotated_shapes unitSquare [Angle.a0]))
      [[((0 : ℚ), (0 : ℚ)), ((1 : ℚ), (0 : ℚ)), ((1 : ℚ), (1 : ℚ)), ((0 : ℚ), (1 : ℚ))],
      [((0 : ℚ), (2 : ℚ)), ((1 : ℚ), (2 : ℚ)), ((1 : ℚ), (3 : ℚ)), ((0 : ℚ), (3 : ℚ))],
      [((0 : ℚ), (4 : ℚ)), ((1 : ℚ), (4 : ℚ)), ((1 : ℚ), (5 : ℚ)), ((0 : ℚ), (5 : ℚ))],
      [((0 : ℚ), (6 : ℚ)), ((1 : ℚ), (6 : ℚ)), ((1 : ℚ), (7 : ℚ)), ((0 : ℚ), (7 : ℚ))],
      [((0 : ℚ), (8 : ℚ)), ((1 : ℚ), (8 : ℚ)), ((1 : ℚ), (9 : ℚ)), ((0 : ℚ), (9 : ℚ))],
      [((2 : ℚ), (0 : ℚ)), ((3 : ℚ), (0 : ℚ)), ((3 : ℚ), (1 : ℚ)), ((2 : ℚ), (1 : ℚ))],
      [((2 : ℚ), (2 : ℚ)), ((3 : ℚ), (2 : ℚ)), ((3 : ℚ), (3 : ℚ)), ((2 : ℚ), (3 : ℚ))],
      [((2 : ℚ), (4 : ℚ)), ((3 : ℚ), (4 : ℚ)), ((3 : ℚ), (5 : ℚ)), ((2 : ℚ), (5 : ℚ))],
      [((2 : ℚ), (6 : ℚ)), ((3 : ℚ), (6 : ℚ)), ((3 : ℚ), (7 : ℚ)), ((2 : ℚ), (7 : ℚ))],
      [((2 : ℚ), (8 : ℚ)), ((3 : ℚ), (8 : ℚ)), ((3 : ℚ), (9 : ℚ)), ((2 : ℚ), (9 : ℚ))]]
      [((3 : ℚ), (0 : ℚ)), ((3 : ℚ), (1 : ℚ)), ((3 : ℚ), (2 : ℚ)), ((3 : ℚ), (3 : ℚ)), ((3 : ℚ), (4 : ℚ)), ((3 : ℚ), (5 : ℚ)), ((3 : ℚ), (6 : ℚ)), ((3 : ℚ), (7 : ℚ)), ((3 : ℚ), (8 : ℚ)), ((3 : ℚ), (9 : ℚ))] =
      [[((0 : ℚ), (0 : ℚ)), ((1 : ℚ), (0 : ℚ)), ((1 : ℚ), (1 : ℚ)), ((0 : ℚ), (1 : ℚ))],
      [((0 : ℚ), (2 : ℚ)), ((1 : ℚ), (2 : ℚ)), ((1 : ℚ), (3 : ℚ)), ((0 : ℚ), (3 : ℚ))],
      [((0 : ℚ), (4 : ℚ)), ((1 : ℚ), (4 : ℚ)), ((1 : ℚ), (5 : ℚ)), ((0 : ℚ), (5 : ℚ))],
      [((0 : ℚ), (6 : ℚ)), ((1 : ℚ), (6 : ℚ)), ((1 : ℚ), (7 : ℚ)), ((0 : ℚ), (7 : ℚ))],
      [((0 : ℚ), (8 : ℚ)), ((1 : ℚ), (8 : ℚ)), ((1 : ℚ), (9 : ℚ)), ((0 : ℚ), (9 : ℚ))],
      [((2 : ℚ), (0 : ℚ)), ((3 : ℚ), (0 : ℚ)), ((3 : ℚ), (1 : ℚ)), ((2 : ℚ), (1 : ℚ))],
      [((2 : ℚ), (2 : ℚ)), ((3 : ℚ), (2 : ℚ)), ((3 : ℚ), (3 : ℚ)), ((2 : ℚ), (3 : ℚ))],
      [((2 : ℚ), (4 : ℚ)), ((3 : ℚ), (4 : ℚ)), ((3 : ℚ), (5 : ℚ)), ((2 : ℚ), (5 : ℚ))],
      [((2 : ℚ), (6 : ℚ)), ((3 : ℚ), (6 : ℚ)), ((3 : ℚ), (7 : ℚ)), ((2 : ℚ), (7 : ℚ))],
      [((2 : ℚ), (8 : ℚ)), ((3 : ℚ), (8 : ℚ)), ((3 : ℚ), (9 : ℚ)), ((2 : ℚ), (9 : ℚ))]] := by
    decide!
  have hc4 : List.foldl
      (placeAtAnchor (containerPoly 10 10) (create_rotated_shapes unitSquare [Angle.a0]))
      [[((0 : ℚ), (0 : ℚ)), ((1 : ℚ), (0 : ℚ)), ((1 : ℚ), (1 : ℚ)), ((0 : ℚ), (1 : ℚ))],
      [((0 : ℚ), (2 : ℚ)), ((1 : ℚ), (2 : ℚ)), ((1 : ℚ), (3 : ℚ)), ((0 : ℚ), (3 : ℚ))],
      [((0 : ℚ), (4 : ℚ)), ((1 : ℚ), (4 : ℚ)), ((1 : ℚ), (5 : ℚ)), ((0 : ℚ), (5 : ℚ))],
      [((0 : ℚ), (6 : ℚ)), ((1 : ℚ), (6 : ℚ)), ((1 : ℚ), (7 : ℚ)), ((0 : ℚ), (7 : ℚ))],
      [((0 : ℚ), (8 : ℚ)), ((1 : ℚ), (8 : ℚ)), ((1 : ℚ), (9 : ℚ)), ((0 : ℚ), (9 : ℚ))],
      [((2 : ℚ), (0 : ℚ)), ((3 : ℚ), (0 : ℚ)), ((3 : ℚ), (1 : ℚ)), ((2 : ℚ), (1 : ℚ))],
      [((2 : ℚ), (2 : ℚ)), ((3 : ℚ), (2 : ℚ)), ((3 : ℚ), (3 : ℚ)), ((2 : ℚ), (3 : ℚ))],
      [((2 : ℚ), (4 : ℚ)), ((3 : ℚ), (4 : ℚ)), ((3 : ℚ), (5 : ℚ)), ((2 : ℚ), (5 : ℚ))],
      [((2 : ℚ), (6 : ℚ)), ((3 : ℚ), (6 : ℚ)), ((3 : ℚ), (7 : ℚ)), ((2 : ℚ), (7 : ℚ))],
      [((2 : ℚ), (8 : ℚ)), ((3 : ℚ), (8 : ℚ)), ((3 : ℚ), (9 : ℚ)), ((2 : ℚ), (9 : ℚ))]]
      [((4 : ℚ), (0 : ℚ)), ((4 : ℚ), (1 : ℚ)), ((4 : ℚ), (2 : ℚ)), ((4 : ℚ), (3 : ℚ)), ((4 : ℚ), (4 : ℚ)), ((4 : ℚ), (5 : ℚ)), ((4 : ℚ), (6 : ℚ)), ((4 : ℚ), (7 : ℚ)), ((4 : ℚ), (8 : ℚ)), ((4 : ℚ), (9 : ℚ))] =
      [[((0 : ℚ), (0 : ℚ)), ((1 : ℚ), (0 : ℚ)), ((1 : ℚ), (1 : ℚ)), ((0 : ℚ), (1 : ℚ))],
      [((0 : ℚ), (2 : ℚ)), ((1 : ℚ), (2 : ℚ)), ((1 : ℚ), (3 : ℚ)), ((0 : ℚ), (3 : ℚ))],
      [((0 : ℚ), (4 : ℚ)), ((1 : ℚ), (4 : ℚ)), ((1 : ℚ), (5 : ℚ)), ((0 : ℚ), (5 : ℚ))],
      [((0 : ℚ), (6 : ℚ)), ((1 : ℚ), (6 : ℚ)), ((1 : ℚ), (7 : ℚ)), ((0 : ℚ), (7 : ℚ))],
      [((0 : ℚ), (8 : ℚ)), ((1 : ℚ), (8 : ℚ)), ((1 : ℚ), (9 : ℚ)), ((0 : ℚ), (9 : ℚ))],
      [((2 : ℚ), (0 : ℚ)), ((3 : ℚ), (0 : ℚ)), ((3 : ℚ), (1 : ℚ)), ((2 : ℚ), (1 : ℚ))],
      [((2 : ℚ), (2 : ℚ)), ((3 : ℚ), (2 : ℚ)), ((3 : ℚ), (3 : ℚ)), ((2 : ℚ), (3 : ℚ))],
      [((2 : ℚ), (4 : ℚ)), ((3 : ℚ), (4 : ℚ)), ((3 : ℚ), (5 : ℚ)), ((2 : ℚ), (5 : ℚ))],
      [((2 : ℚ), (6 : ℚ)), ((3 : ℚ), (6 : ℚ)), ((3 : ℚ), (7 : ℚ)), ((2 : ℚ), (7 : ℚ))],
      [((2 : ℚ), (8 : ℚ)), ((3 : ℚ), (8 : ℚ)), ((3 : ℚ), (9 : ℚ)), ((2 : ℚ), (9 : ℚ))],
      [((4 : ℚ), (0 : ℚ)), ((5 : ℚ), (0 : ℚ)), ((5 : ℚ), (1 : ℚ)), ((4 : ℚ), (1 : ℚ))],
      [((4 : ℚ), (2 : ℚ)), ((5 : ℚ), (2 : ℚ)), ((5 : ℚ), (3 : ℚ)), ((4 : ℚ), (3 : ℚ))],
      [((4 : ℚ), (4 : ℚ)), ((5 : ℚ), (4 : ℚ)), ((5 : ℚ), (5 : ℚ)), ((4 : ℚ), (5 : ℚ))],
      [((4 : ℚ), (6 : ℚ)), ((5 : ℚ), (6 : ℚ)), ((5 : ℚ), (7 : ℚ)), ((4 : ℚ), (7 : ℚ))],
      [((4 : ℚ), (8 : ℚ)), ((5 : ℚ), (8 : ℚ)), ((5 : ℚ), (9 : ℚ)), ((4 : ℚ), (9 : ℚ))]] := by
    decide!
  have hc5 : List.foldl
      (placeAtAnchor (containerPoly 10 10) (create_rotated_shapes unitSquare [Angle.a0]))
      [[((0 : ℚ), (0 : ℚ)), ((1 : ℚ), (0 : ℚ)), ((1 : ℚ), (1 : ℚ)), ((0 : ℚ), (1 : ℚ))],
      [((0 : ℚ), (2 : ℚ)), ((1 : ℚ), (2 : ℚ)), ((1 : ℚ), (3 : ℚ)), ((0 : ℚ), (3 : ℚ))],
      [((0 : ℚ), (4 : ℚ)), ((1 : ℚ), (4 : ℚ)), ((1 : ℚ), (5 : ℚ)), ((0 : ℚ), (5 : ℚ))],
      [((0 : ℚ), (6 : ℚ)), ((1 : ℚ), (6 : ℚ)), ((1 : ℚ), (7 : ℚ)), ((0 : ℚ), (7 : ℚ))],
      [((0 : ℚ), (8 : ℚ)), ((1 : ℚ), (8 : ℚ)), ((1 : ℚ), (9 : ℚ)), ((0 : ℚ), (9 : ℚ))],
      [((2 : ℚ), (0 : ℚ)), ((3 : ℚ), (0 : ℚ)), ((3 : ℚ), (1 : ℚ)), ((2 : ℚ), (1 : ℚ))],
      [((2 : ℚ), (2 : ℚ)), ((3 : ℚ), (2 : ℚ)), ((3 : ℚ), (3 : ℚ)), ((2 : ℚ), (3 : ℚ))],
      [((2 : ℚ), (4 : ℚ)), ((3 : ℚ), (4 : ℚ)), ((3 : ℚ), (5 : ℚ)), ((2 : ℚ), (5 : ℚ))],
      [((2 : ℚ), (6 : ℚ)), ((3 : ℚ), (6 : ℚ)), ((3 : ℚ), (7 : ℚ)), ((2 : ℚ), (7 : ℚ))],
      [((2 : ℚ), (8 : ℚ)), ((3 : ℚ), (8 : ℚ)), ((3 : ℚ), (9 : ℚ)), ((2 : ℚ), (9 : ℚ))],
      [((4 : ℚ), (0 : ℚ)), ((5 : ℚ), (0 : ℚ)), ((5 : ℚ), (1 : ℚ)), ((4 : ℚ), (1 : ℚ))],
      [((4 : ℚ), (2 : ℚ)), ((5 : ℚ), (2 : ℚ)), ((5 : ℚ), (3 : ℚ)), ((4 : ℚ), (3 : ℚ))],
      [((4 : ℚ), (4 : ℚ)), ((5 : ℚ), (4 : ℚ)), ((5 : ℚ), (5 : ℚ)), ((4 : ℚ), (5 : ℚ))],
      [((4 : ℚ), (6 : ℚ)), ((5 : ℚ), (6 : ℚ)), ((5 : ℚ), (7 : ℚ)), ((4 : ℚ), (7 : ℚ))],
      [((4 : ℚ), (8 : ℚ)), ((5 : ℚ), (8 : ℚ)), ((5 : ℚ), (9 : ℚ)), ((4 : ℚ), (9 : ℚ))]]
      [((5 : ℚ), (0 : ℚ)), ((5 : ℚ), (1 : ℚ)), ((5 : ℚ), (2 : ℚ)), ((5 : ℚ), (3 : ℚ)), ((5 : ℚ), (4 : ℚ)), ((5 : ℚ), (5 : ℚ)), ((5 : ℚ), (6 : ℚ)), ((5 : ℚ), (7 : ℚ)), ((5 : ℚ), (8 : ℚ)), ((5 : ℚ), (9 : ℚ))] =
      [[((0 : ℚ), (0 : ℚ)), ((1 : ℚ), (0 : ℚ)), ((1 : ℚ), (1 : ℚ)), ((0 : ℚ), (1 : ℚ))],
      [((0 : ℚ), (2 : ℚ)), ((1 : ℚ), (2 : ℚ)), ((1 : ℚ), (3 : ℚ)), ((0 : ℚ), (3 : ℚ))],
      [((0 : ℚ), (4 : ℚ)), ((1 : ℚ), (4 : ℚ)), ((1 : ℚ), (5 : ℚ)), ((0 : ℚ), (5 : ℚ))],
      [((0 : ℚ), (6 : ℚ)), ((1 : ℚ), (6 : ℚ)), ((1 : ℚ), (7 : ℚ)), ((0 : ℚ), (7 : ℚ))],
      [((0 : ℚ), (8 : ℚ)), ((1 : ℚ), (8 : ℚ)), ((1 : ℚ), (9 : ℚ)), ((0 : ℚ), (9 : ℚ))],
      [((2 : ℚ), (0 : ℚ)), ((3 : ℚ), (0 : ℚ)), ((3 : ℚ), (1 : ℚ)), ((2 : ℚ), (1 : ℚ))],
      [((2 : ℚ), (2 : ℚ)), ((3 : ℚ), (2 : ℚ)), ((3 : ℚ), (3 : ℚ)), ((2 : ℚ), (3 : ℚ))],
      [((2 : ℚ), (4 : ℚ)), ((3 : ℚ), (4 : ℚ)), ((3 : ℚ), (5 : ℚ)), ((2 : ℚ), (5 : ℚ))],
      [((2 : ℚ), (6 : ℚ)), ((3 : ℚ), (6 : ℚ)), ((3 : ℚ), (7 : ℚ)), ((2 : ℚ), (7 : ℚ))],
      [((2 : ℚ), (8 : ℚ)), ((3 : ℚ), (8 : ℚ)), ((3 : ℚ), (9 : ℚ)), ((2 : ℚ), (9 : ℚ))],
      [((4 : ℚ), (0 : ℚ)), ((5 : ℚ), (0 : ℚ)), ((5 : ℚ), (1 : ℚ)), ((4 : ℚ), (1 : ℚ))],
      [((4 : ℚ), (2 : ℚ)), ((5 : ℚ), (2 : ℚ)), ((5 : ℚ), (3 : ℚ)), ((4 : ℚ), (3 : ℚ))],
      [((4 : ℚ), (4 : ℚ)), ((5 : ℚ), (4 : ℚ)), ((5 : ℚ), (5 : ℚ)), ((4 : ℚ), (5 : ℚ))],
      [((4 : ℚ), (6 : ℚ)), ((5 : ℚ), (6 : ℚ)), ((5 : ℚ), (7 : ℚ)), ((4 : ℚ), (7 : ℚ))],
      [((4 : ℚ), (8 : ℚ)), ((5 : ℚ), (8 : ℚ)), ((5 : ℚ), (9 : ℚ)), ((4 : ℚ), (9 : ℚ))]] := by
    decide!
  have hc6 : List.foldl
      (placeAtAnchor (containerPoly 10 10) (create_rotated_shapes unitSquare [Angle.a0]))
      [[((0 : ℚ), (0 : ℚ)), ((1 : ℚ), (0 : ℚ)), ((1 : ℚ), (1 : ℚ)), ((0 : ℚ), (1 : ℚ))],
      [((0 : ℚ), (2 : ℚ)), ((1 : ℚ), (2 : ℚ)), ((1 : ℚ), (3 : ℚ)), ((0 : ℚ), (3 : ℚ))],
      [((0 : ℚ), (4 : ℚ)), ((1 : ℚ), (4 : ℚ)), ((1 : ℚ), (5 : ℚ)), ((0 : ℚ), (5 : ℚ))],
      [((0 : ℚ), (6 : ℚ)), ((1 : ℚ), (6 : ℚ)), ((1 : ℚ), (7 : ℚ)), ((0 : ℚ), (7 : ℚ))],
      [((0 : ℚ), (8 : ℚ)), ((1 : ℚ), (8 : ℚ)), ((1 : ℚ), (9 : ℚ)), ((0 : ℚ), (9 : ℚ))],
      [((2 : ℚ), (0 : ℚ)), ((3 : ℚ), (0 : ℚ)), ((3 : ℚ), (1 : ℚ)), ((2 : ℚ), (1 : ℚ))],
      [((2 : ℚ), (2 : ℚ)), ((3 : ℚ), (2 : ℚ)), ((3 : ℚ), (3 : ℚ)), ((2 : ℚ), (3 : ℚ))],
      [((2 : ℚ), (4 : ℚ)), ((3 : ℚ), (4 : ℚ)), ((3 : ℚ), (5 : ℚ)), ((2 : ℚ), (5 : ℚ))],
      [((2 : ℚ), (6 : ℚ)), ((3 : ℚ), (6 : ℚ)), ((3 : ℚ), (7 : ℚ)), ((2 : ℚ), (7 : ℚ))],
      [((2 : ℚ), (8 : ℚ)), ((3 : ℚ), (8 : ℚ)), ((3 : ℚ), (9 : ℚ)), ((2 : ℚ), (9 : ℚ))],
      [((4 : ℚ), (0 : ℚ)), ((5 : ℚ), (0 : ℚ)), ((5 : ℚ), (1 : ℚ)), ((4 : ℚ), (1 : ℚ))],
      [((4 : ℚ), (2 : ℚ)), ((5 : ℚ), (2 : ℚ)), ((5 : ℚ), (3 : ℚ)), ((4 : ℚ), (3 : ℚ))],
      [((4 : ℚ), (4 : ℚ)), ((5 : ℚ), (4 : ℚ)), ((5 : ℚ), (5 : ℚ)), ((4 : ℚ), (5 : ℚ))],
      [((4 : ℚ), (6 : ℚ)), ((5 : ℚ), (6 : ℚ)), ((5 : ℚ), (7 : ℚ)), ((4 : ℚ), (7 : ℚ))],
      [((4 : ℚ), (8 : ℚ)), ((5 : ℚ), (8 : ℚ)), ((5 : ℚ), (9 : ℚ)), ((4 : ℚ), (9 : ℚ))]]
      [((6 : ℚ), (0 : ℚ)), ((6 : ℚ), (1 : ℚ)), ((6 : ℚ), (2 : ℚ)), ((6 : ℚ), (3 : ℚ)), ((6 : ℚ), (4 : ℚ)), ((6 : ℚ), (5 : ℚ)), ((6 : ℚ), (6 : ℚ)), ((6 : ℚ), (7 : ℚ)), ((6 : ℚ), (8 : ℚ)), ((6 : ℚ), (9 : ℚ))] =
      [[((0 : ℚ), (0 : ℚ)), ((1 : ℚ), (0 : ℚ)), ((1 : ℚ), (1 : ℚ)), ((0 : ℚ), (1 : ℚ))],
      [((0 : ℚ), (2 : ℚ)), ((1 : ℚ), (2 : ℚ)), ((1 : ℚ), (3 : ℚ)), ((0 : ℚ), (3 : ℚ))],
      [((0 : ℚ), (4 : ℚ)), ((1 : ℚ), (4 : ℚ)), ((1 : ℚ), (5 : ℚ)), ((0 : ℚ), (5 : ℚ))],
      [((0 : ℚ), (6 : ℚ)), ((1 : ℚ), (6 : ℚ)), ((1 : ℚ), (7 : ℚ)), ((0 : ℚ), (7 : ℚ))],
      [((0 : ℚ), (8 : ℚ)), ((1 : ℚ), (8 : ℚ)), ((1 : ℚ), (9 : ℚ)), ((0 : ℚ), (9 : ℚ))],
      [((2 : ℚ), (0 : ℚ)), ((3 : ℚ), (0 : ℚ)), ((3 : ℚ), (1 : ℚ)), ((2 : ℚ), (1 : ℚ))],
      [((2 : ℚ), (2 : ℚ)), ((3 : ℚ), (2 : ℚ)), ((3 : ℚ), (3 : ℚ)), ((2 : ℚ), (3 : ℚ))],
      [((2 : ℚ), (4 : ℚ)), ((3 : ℚ), (4 : ℚ)), ((3 : ℚ), (5 : ℚ)), ((2 : ℚ), (5 : ℚ))],
      [((2 : ℚ), (6 : ℚ)), ((3 : ℚ), (6 : ℚ)), ((3 : ℚ), (7 : ℚ)), ((2 : ℚ), (7 : ℚ))],
      [((2 : ℚ), (8 : ℚ)), ((3 : ℚ), (8 : ℚ)), ((3 : ℚ), (9 : ℚ)), ((2 : ℚ), (9 : ℚ))],
      [((4 : ℚ), (0 : ℚ)), ((5 : ℚ), (0 : ℚ)), ((5 : ℚ), (1 : ℚ)), ((4 : ℚ), (1 : ℚ))],
      [((4 : ℚ), (2 : ℚ)), ((5 : ℚ), (2 : ℚ)), ((5 : ℚ), (3 : ℚ)), ((4 : ℚ), (3 : ℚ))],
      [((4 : ℚ), (4 : ℚ)), ((5 : ℚ), (4 : ℚ)), ((5 : ℚ), (5 : ℚ)), ((4 : ℚ), (5 : ℚ))],
      [((4 : ℚ), (6 : ℚ)), ((5 : ℚ), (6 : ℚ)), ((5 : ℚ), (7 : ℚ)), ((4 : ℚ), (7 : ℚ))],
      [((4 : ℚ), (8 : ℚ)), ((5 : ℚ), (8 : ℚ)), ((5 : ℚ), (9 : ℚ)), ((4 : ℚ), (9 : ℚ))],
      [((6 : ℚ), (0 : ℚ)), ((7 : ℚ), (0 : ℚ)), ((7 : ℚ), (1 : ℚ)), ((6 : ℚ), (1 : ℚ))],
      [((6 : ℚ), (2 : ℚ)), ((7 : ℚ), (2 : ℚ)), ((7 : ℚ), (3 : ℚ)), ((6 : ℚ), (3 : ℚ))],
      [((6 : ℚ), (4 : ℚ)), ((7 : ℚ), (4 : ℚ)), ((7 : ℚ), (5 : ℚ)), ((6 : ℚ), (5 : ℚ))],
      [((6 : ℚ), (6 : ℚ)), ((7 : ℚ), (6 : ℚ)), ((7 : ℚ), (7 : ℚ)), ((6 : ℚ), (7 : ℚ))],
      [((6 : ℚ), (8 : ℚ)), ((7 : ℚ), (8 : ℚ)), ((7 : ℚ), (9 : ℚ)), ((6 : ℚ), (9 : ℚ))]] := by
    decide!
  have hc7 : List.foldl
      (placeAtAnchor (containerPoly 10 10) (create_rotated_shapes unitSquare [Angle.a0]))
      [[((0 : ℚ), (0 : ℚ)), ((1 : ℚ), (0 : ℚ)), ((1 : ℚ), (1 : ℚ)), ((0 : ℚ), (1 : ℚ))],
      [((0 : ℚ), (2 : ℚ)), ((1 : ℚ), (2 : ℚ)), ((1 : ℚ), (3 : ℚ)), ((0 : ℚ), (3 : ℚ))],
      [((0 : ℚ), (4 : ℚ)), ((1 : ℚ), (4 : ℚ)), ((1 : ℚ), (5 : ℚ)), ((0 : ℚ), (5 : ℚ))],
      [((0 : ℚ), (6 : ℚ)), ((1 : ℚ), (6 : ℚ)), ((1 : ℚ), (7 : ℚ)), ((0 : ℚ), (7 : ℚ))],
      [((0 : ℚ), (8 : ℚ)), ((1 : ℚ), (8 : ℚ)), ((1 : ℚ), (9 : ℚ)), ((0 : ℚ), (9 : ℚ))],
      [((2 : ℚ), (0 : ℚ)), ((3 : ℚ), (0 : ℚ)), ((3 : ℚ), (1 : ℚ)), ((2 : ℚ), (1 : ℚ))],
      [((2 : ℚ), (2 : ℚ)), ((3 : ℚ), (2 : ℚ)), ((3 : ℚ), (3 : ℚ)), ((2 : ℚ), (3 : ℚ))],
      [((2 : ℚ), (4 : ℚ)), ((3 : ℚ), (4 : ℚ)), ((3 : ℚ), (5 : ℚ)), ((2 : ℚ), (5 : ℚ))],
      [((2 : ℚ), (6 : ℚ)), ((3 : ℚ), (6 : ℚ)), ((3 : ℚ), (7 : ℚ)), ((2 : ℚ), (7 : ℚ))],
      [((2 : ℚ), (8 : ℚ)), ((3 : ℚ), (8 : ℚ)), ((3 : ℚ), (9 : ℚ)), ((2 : ℚ), (9 : ℚ))],
      [((4 : ℚ), (0 : ℚ)), ((5 : ℚ), (0 : ℚ)), ((5 : ℚ), (1 : ℚ)), ((4 : ℚ), (1 : ℚ))],
      [((4 : ℚ), (2 : ℚ)), ((5 : ℚ), (2 : ℚ)), ((5 : ℚ), (3 : ℚ)), ((4 : ℚ), (3 : ℚ))],
      [((4 : ℚ), (4 : ℚ)), ((5 : ℚ), (4 : ℚ)), ((5 : ℚ), (5 : ℚ)), ((4 : ℚ), (5 : ℚ))],
      [((4 : ℚ), (6 : ℚ)), ((5 : ℚ), (6 : ℚ)), ((5 : ℚ), (7 : ℚ)), ((4 : ℚ), (7 : ℚ))],
      [((4 : ℚ), (8 : ℚ)), ((5 : ℚ), (8 : ℚ)), ((5 : ℚ), (9 : ℚ)), ((4 : ℚ), (9 : ℚ))],
      [((6 : ℚ), (0 : ℚ)), ((7 : ℚ), (0 : ℚ)), ((7 : ℚ), (1 : ℚ)), ((6 : ℚ), (1 : ℚ))],
      [((6 : ℚ), (2 : ℚ)), ((7 : ℚ), (2 : ℚ)), ((7 : ℚ), (3 : ℚ)), ((6 : ℚ), (3 : ℚ))],
      [((6 : ℚ), (4 : ℚ)), ((7 : ℚ), (4 : ℚ)), ((7 : ℚ), (5 : ℚ)), ((6 : ℚ), (5 : ℚ))],
      [((6 : ℚ), (6 : ℚ)), ((7 : ℚ), (6 : ℚ)), ((7 : ℚ), (7 : ℚ)), ((6 : ℚ), (7 : ℚ))],
      [((6 : ℚ), (8 : ℚ)), ((7 : ℚ), (8 : ℚ)), ((7 : ℚ), (9 : ℚ)), ((6 : ℚ), (9 : ℚ))]]
      [((7 : ℚ), (0 : ℚ)), ((7 : ℚ), (1 : ℚ)), ((7 : ℚ), (2 : ℚ)), ((7 : ℚ), (3 : ℚ)), ((7 : ℚ), (4 : ℚ)), ((7 : ℚ), (5 : ℚ)), ((7 : ℚ), (6 : ℚ)), ((7 : ℚ), (7 : ℚ)), ((7 : ℚ), (8 : ℚ)), ((7 : ℚ), (9 : ℚ))] =
      [[((0 : ℚ), (0 : ℚ)), ((1 : ℚ), (0 : ℚ)), ((1 : ℚ), (1 : ℚ)), ((0 : ℚ), (1 : ℚ))],
      [((0 : ℚ), (2 : ℚ)), ((1 : ℚ), (2 : ℚ)), ((1 : ℚ), (3 : ℚ)), ((0 : ℚ), (3 : ℚ))],
      [((0 : ℚ), (4 : ℚ)), ((1 : ℚ), (4 : ℚ)), ((1 : ℚ), (5 : ℚ)), ((0 : ℚ), (5 : ℚ))],
      [((0 : ℚ), (6 : ℚ)), ((1 : ℚ), (6 : ℚ)), ((1 : ℚ), (7 : ℚ)), ((0 : ℚ), (7 : ℚ))],
      [((0 : ℚ), (8 : ℚ)), ((1 : ℚ), (8 : ℚ)), ((1 : ℚ), (9 : ℚ)), ((0 : ℚ), (9 : ℚ))],
      [((2 : ℚ), (0 : ℚ)), ((3 : ℚ), (0 : ℚ)), ((3 : ℚ), (1 : ℚ)), ((2 : ℚ), (1 : ℚ))],
      [((2 : ℚ), (2 : ℚ)), ((3 : ℚ), (2 : ℚ)), ((3 : ℚ), (3 : ℚ)), ((2 : ℚ), (3 : ℚ))],
      [((2 : ℚ), (4 : ℚ)), ((3 : ℚ), (4 : ℚ)), ((3 : ℚ), (5 : ℚ)), ((2 : ℚ), (5 : ℚ))],
      [((2 : ℚ), (6 : ℚ)), ((3 : ℚ), (6 : ℚ)), ((3 : ℚ), (7 : ℚ)), ((2 : ℚ), (7 : ℚ))],
      [((2 : ℚ), (8 : ℚ)), ((3 : ℚ), (8 : ℚ)), ((3 : ℚ), (9 : ℚ)), ((2 : ℚ), (9 : ℚ))],
      [((4 : ℚ), (0 : ℚ)), ((5 : ℚ), (0 : ℚ)), ((5 : ℚ), (1 : ℚ)), ((4 : ℚ), (1 : ℚ))],
      [((4 : ℚ), (2 : ℚ)), ((5 : ℚ), (2 : ℚ)), ((5 : ℚ), (3 : ℚ)), ((4 : ℚ), (3 : ℚ))],
      [((4 : ℚ), (4 : ℚ)), ((5 : ℚ), (4 : ℚ)), ((5 : ℚ), (5 : ℚ)), ((4 : ℚ), (5 : ℚ))],
      [((4 : ℚ), (6 : ℚ)), ((5 : ℚ), (6 : ℚ)), ((5 : ℚ), (7 : ℚ)), ((4 : ℚ), (7 : ℚ))],
      [((4 : ℚ), (8 : ℚ)), ((5 : ℚ), (8 : ℚ)), ((5 : ℚ), (9 : ℚ)), ((4 : ℚ), (9 : ℚ))],
      [((6 : ℚ), (0 : ℚ)), ((7 : ℚ), (0 : ℚ)), ((7 : ℚ), (1 : ℚ)), ((6 : ℚ), (1 : ℚ))],
      [((6 : ℚ), (2 : ℚ)), ((7 : ℚ), (2 : ℚ)), ((7 : ℚ), (3 : ℚ)), ((6 : ℚ), (3 : ℚ))],
      [((6 : ℚ), (4 : ℚ)), ((7 : ℚ), (4 : ℚ)), ((7 : ℚ), (5 : ℚ)), ((6 : ℚ), (5 : ℚ))],
      [((6 : ℚ), (6 : ℚ)), ((7 : ℚ), (6 : ℚ)), ((7 : ℚ), (7 : ℚ)), ((6 : ℚ), (7 : ℚ))],
      [((6 : ℚ), (8 : ℚ)), ((7 : ℚ), (8 : ℚ)), ((7 : ℚ), (9 : ℚ)), ((6 : ℚ), (9 : ℚ))]] := by
    decide!
  have hc8 : List.foldl
      (placeAtAnchor (containerPoly 10 10) (create_rotated_shapes unitSquare [Angle.a0]))
      [[((0 : ℚ), (0 : ℚ)), ((1 : ℚ), (0 : ℚ)), ((1 : ℚ), (1 : ℚ)), ((0 : ℚ), (1 : ℚ))],
      [((0 : ℚ), (2 : ℚ)), ((1 : ℚ), (2 : ℚ)), ((1 : ℚ), (3 : ℚ)), ((0 : ℚ), (3 : ℚ))],
      [((0 : ℚ), (4 : ℚ)), ((1 : ℚ), (4 : ℚ)), ((1 : ℚ), (5 : ℚ)), ((0 : ℚ), (5 : ℚ))],
      [((0 : ℚ), (6 : ℚ)), ((1 : ℚ), (6 : ℚ)), ((1 : ℚ), (7 : ℚ)), ((0 : ℚ), (7 : ℚ))],
      [((0 : ℚ), (8 : ℚ)), ((1 : ℚ), (8 : ℚ)), ((1 : ℚ), (9 : ℚ)), ((0 : ℚ), (9 : ℚ))],
      [((2 : ℚ), (0 : ℚ)), ((3 : ℚ), (0 : ℚ)), ((3 : ℚ), (1 : ℚ)), ((2 : ℚ), (1 : ℚ))],
      [((2 : ℚ), (2 : ℚ)), ((3 : ℚ), (2 : ℚ)), ((3 : ℚ), (3 : ℚ)), ((2 : ℚ), (3 : ℚ))],
      [((2 : ℚ), (4 : ℚ)), ((3 : ℚ), (4 : ℚ)), ((3 : ℚ), (5 : ℚ)), ((2 : ℚ), (5 : ℚ))],
      [((2 : ℚ), (6 : ℚ)), ((3 : ℚ), (6 : ℚ)), ((3 : ℚ), (7 : ℚ)), ((2 : ℚ), (7 : ℚ))],
      [((2 : ℚ), (8 : ℚ)), ((3 : ℚ), (8 : ℚ)), ((3 : ℚ), (9 : ℚ)), ((2 : ℚ), (9 : ℚ))],
      [((4 : ℚ), (0 : ℚ)), ((5 : ℚ), (0 : ℚ)), ((5 : ℚ), (1 : ℚ)), ((4 : ℚ), (1 : ℚ))],
      [((4 : ℚ), (2 : ℚ)), ((5 : ℚ), (2 : ℚ)), ((5 : ℚ), (3 : ℚ)), ((4 : ℚ), (3 : ℚ))],
      [((4 : ℚ), (4 : ℚ)), ((5 : ℚ), (4 : ℚ)), ((5 : ℚ), (5 : ℚ)), ((4 : ℚ), (5 : ℚ))],
      [((4 : ℚ), (6 : ℚ)), ((5 : ℚ), (6 : ℚ)), ((5 : ℚ), (7 : ℚ)), ((4 : ℚ), (7 : ℚ))],
      [((4 : ℚ), (8 : ℚ)), ((5 : ℚ), (8 : ℚ)), ((5 : ℚ), (9 : ℚ)), ((4 : ℚ), (9 : ℚ))],
      [((6 : ℚ), (0 : ℚ)), ((7 : ℚ), (0 : ℚ)), ((7 : ℚ), (1 : ℚ)), ((6 : ℚ), (1 : ℚ))],
      [((6 : ℚ), (2 : ℚ)), ((7 : ℚ), (2 : ℚ)), ((7 : ℚ), (3 : ℚ)), ((6 : ℚ), (3 : ℚ))],
      [((6 : ℚ), (4 : ℚ)), ((7 : ℚ), (4 : ℚ)), ((7 : ℚ), (5 : ℚ)), ((6 : ℚ), (5 : ℚ))],
      [((6 : ℚ), (6 : ℚ)), ((7 : ℚ), (6 : ℚ)), ((7 : ℚ), (7 : ℚ)), ((6 : ℚ), (7 : ℚ))],
      [((6 : ℚ), (8 : ℚ)), ((7 : ℚ), (8 : ℚ)), ((7 : ℚ), (9 : ℚ)), ((6 : ℚ), (9 : ℚ))]]
      [((8 : ℚ), (0 : ℚ)), ((8 : ℚ), (1 : ℚ)), ((8 : ℚ), (2 : ℚ)), ((8 : ℚ), (3 : ℚ)), ((8 : ℚ), (4 : ℚ)), ((8 : ℚ), (5 : ℚ)), ((8 : ℚ), (6 : ℚ)), ((8 : ℚ), (7 : ℚ)), ((8 : ℚ), (8 : ℚ)), ((8 : ℚ), (9 : ℚ))] =
      [[((0 : ℚ), (0 : ℚ)), ((1 : ℚ), (0 : ℚ)), ((1 : ℚ), (1 : ℚ)), ((0 : ℚ), (1 : ℚ))],
      [((0 : ℚ), (2 : ℚ)), ((1 : ℚ), (2 : ℚ)), ((1 : ℚ), (3 : ℚ)), ((0 : ℚ), (3 : ℚ))],
      [((0 : ℚ), (4 : ℚ)), ((1 : ℚ), (4 : ℚ)), ((1 : ℚ), (5 : ℚ)), ((0 : ℚ), (5 : ℚ))],
      [((0 : ℚ), (6 : ℚ)), ((1 : ℚ), (6 : ℚ)), ((1 : ℚ), (7 : ℚ)), ((0 : ℚ), (7 : ℚ))],
      [((0 : ℚ), (8 : ℚ)), ((1 : ℚ), (8 : ℚ)), ((1 : ℚ), (9 : ℚ)), ((0 : ℚ), (9 : ℚ))],
      [((2 : ℚ), (0 : ℚ)), ((3 : ℚ), (0 : ℚ)), ((3 : ℚ), (1 : ℚ)), ((2 : ℚ), (1 : ℚ))],
      [((2 : ℚ), (2 : ℚ)), ((3 : ℚ), (2 : ℚ)), ((3 : ℚ), (3 : ℚ)), ((2 : ℚ), (3 : ℚ))],
      [((2 : ℚ), (4 : ℚ)), ((3 : ℚ), (4 : ℚ)), ((3 : ℚ), (5 : ℚ)), ((2 : ℚ), (5 : ℚ))],
      [((2 : ℚ), (6 : ℚ)), ((3 : ℚ), (6 : ℚ)), ((3 : ℚ), (7 : ℚ)), ((2 : ℚ), (7 : ℚ))],
      [((2 : ℚ), (8 : ℚ)), ((3 : ℚ), (8 : ℚ)), ((3 : ℚ), (9 : ℚ)), ((2 : ℚ), (9 : ℚ))],
      [((4 : ℚ), (0 : ℚ)), ((5 : ℚ), (0 : ℚ)), ((5 : ℚ), (1 : ℚ)), ((4 : ℚ), (1 : ℚ))],
      [((4 : ℚ), (2 : ℚ)), ((5 : ℚ), (2 : ℚ)), ((5 : ℚ), (3 : ℚ)), ((4 : ℚ), (3 : ℚ))],
      [((4 : ℚ), (4 : ℚ)), ((5 : ℚ), (4 : ℚ)), ((5 : ℚ), (5 : ℚ)), ((4 : ℚ), (5 : ℚ))],
      [((4 : ℚ), (6 : ℚ)), ((5 : ℚ), (6 : ℚ)), ((5 : ℚ), (7 : ℚ)), ((4 : ℚ), (7 : ℚ))],
      [((4 : ℚ), (8 : ℚ)), ((5 : ℚ), (8 : ℚ)), ((5 : ℚ), (9 : ℚ)), ((4 : ℚ), (9 : ℚ))],
      [((6 : ℚ), (0 : ℚ)), ((7 : ℚ), (0 : ℚ)), ((7 : ℚ), (1 : ℚ)), ((6 : ℚ), (1 : ℚ))],
      [((6 : ℚ), (2 : ℚ)), ((7 : ℚ), (2 : ℚ)), ((7 : ℚ), (3 : ℚ)), ((6 : ℚ), (3 : ℚ))],
      [((6 : ℚ), (4 : ℚ)), ((7 : ℚ), (4 : ℚ)), ((7 : ℚ), (5 : ℚ)), ((6 : ℚ), (5 : ℚ))],
      [((6 : ℚ), (6 : ℚ)), ((7 : ℚ), (6 : ℚ)), ((7 : ℚ), (7 : ℚ)), ((6 : ℚ), (7 : ℚ))],
      [((6 : ℚ), (8 : ℚ)), ((7 : ℚ), (8 : ℚ)), ((7 : ℚ), (9 : ℚ)), ((6 : ℚ), (9 : ℚ))],
      [((8 : ℚ), (0 : ℚ)), ((9 : ℚ), (0 : ℚ)), ((9 : ℚ), (1 : ℚ)), ((8 : ℚ), (1 : ℚ))],
      [((8 : ℚ), (2 : ℚ)), ((9 : ℚ), (2 : ℚ)), ((9 : ℚ), (3 : ℚ)), ((8 : ℚ), (3 : ℚ))],
      [((8 : ℚ), (4 : ℚ)), ((9 : ℚ), (4 : ℚ)), ((9 : ℚ), (5 : ℚ)), ((8 : ℚ), (5 : ℚ))],
      [((8 : ℚ), (6 : ℚ)), ((9 : ℚ), (6 : ℚ)), ((9 : ℚ), (7 : ℚ)), ((8 : ℚ), (7 : ℚ))],
      [((8 : ℚ), (8 : ℚ)), ((9 : ℚ), (8 : ℚ)), ((9 : ℚ), (9 : ℚ)), ((8 : ℚ), (9 : ℚ))]] := by
    decide!
  have hc9 : List.foldl
      (placeAtAnchor (containerPoly 10 10) (create_rotated_shapes unitSquare [Angle.a0]))
      [[((0 : ℚ), (0 : ℚ)), ((1 : ℚ), (0 : ℚ)), ((1 : ℚ), (1 : ℚ)), ((0 : ℚ), (1 : ℚ))],
      [((0 : ℚ), (2 : ℚ)), ((1 : ℚ), (2 : ℚ)), ((1 : ℚ), (3 : ℚ)), ((0 : ℚ), (3 : ℚ))],
      [((0 : ℚ), (4 : ℚ)), ((1 : ℚ), (4 : ℚ)), ((1 : ℚ), (5 : ℚ)), ((0 : ℚ), (5 : ℚ))],
      [((0 : ℚ), (6 : ℚ)), ((1 : ℚ), (6 : ℚ)), ((1 : ℚ), (7 : ℚ)), ((0 : ℚ), (7 : ℚ))],
      [((0 : ℚ), (8 : ℚ)), ((1 : ℚ), (8 : ℚ)), ((1 : ℚ), (9 : ℚ)), ((0 : ℚ), (9 : ℚ))],
      [((2 : ℚ), (0 : ℚ)), ((3 : ℚ), (0 : ℚ)), ((3 : ℚ), (1 : ℚ)), ((2 : ℚ), (1 : ℚ))],
      [((2 : ℚ), (2 : ℚ)), ((3 : ℚ), (2 : ℚ)), ((3 : ℚ), (3 : ℚ)), ((2 : ℚ), (3 : ℚ))],
      [((2 : ℚ), (4 : ℚ)), ((3 : ℚ), (4 : ℚ)), ((3 : ℚ), (5 : ℚ)), ((2 : ℚ), (5 : ℚ))],
      [((2 : ℚ), (6 : ℚ)), ((3 : ℚ), (6 : ℚ)), ((3 : ℚ), (7 : ℚ)), ((2 : ℚ), (7 : ℚ))],
      [((2 : ℚ), (8 : ℚ)), ((3 : ℚ), (8 : ℚ)), ((3 : ℚ), (9 : ℚ)), ((2 : ℚ), (9 : ℚ))],
      [((4 : ℚ), (0 : ℚ)), ((5 : ℚ), (0 : ℚ)), ((5 : ℚ), (1 : ℚ)), ((4 : ℚ), (1 : ℚ))],
      [((4 : ℚ), (2 : ℚ)), ((5 : ℚ), (2 : ℚ)), ((5 : ℚ), (3 : ℚ)), ((4 : ℚ), (3 : ℚ))],
      [((4 : ℚ), (4 : ℚ)), ((5 : ℚ), (4 : ℚ)), ((5 : ℚ), (5 : ℚ)), ((4 : ℚ), (5 : ℚ))],
      [((4 : ℚ), (6 : ℚ)), ((5 : ℚ), (6 : ℚ)), ((5 : ℚ), (7 : ℚ)), ((4 : ℚ), (7 : ℚ))],
      [((4 : ℚ), (8 : ℚ)), ((5 : ℚ), (8 : ℚ)), ((5 : ℚ), (9 : ℚ)), ((4 : ℚ), (9 : ℚ))],
      [((6 : ℚ), (0 : ℚ)), ((7 : ℚ), (0 : ℚ)), ((7 : ℚ), (1 : ℚ)), ((6 : ℚ), (1 : ℚ))],
      [((6 : ℚ), (2 : ℚ)), ((7 : ℚ), (2 : ℚ)), ((7 : ℚ), (3 : ℚ)), ((6 : ℚ), (3 : ℚ))],
      [((6 : ℚ), (4 : ℚ)), ((7 : ℚ), (4 : ℚ)), ((7 : ℚ), (5 : ℚ)), ((6 : ℚ), (5 : ℚ))],
      [((6 : ℚ), (6 : ℚ)), ((7 : ℚ), (6 : ℚ)), ((7 : ℚ), (7 : ℚ)), ((6 : ℚ), (7 : ℚ))],
      [((6 : ℚ), (8 : ℚ)), ((7 : ℚ), (8 : ℚ)), ((7 : ℚ), (9 : ℚ)), ((6 : ℚ), (9 : ℚ))],
      [((8 : ℚ), (0 : ℚ)), ((9 : ℚ), (0 : ℚ)), ((9 : ℚ), (1 : ℚ)), ((8 : ℚ), (1 : ℚ))],
      [((8 : ℚ), (2 : ℚ)), ((9 : ℚ), (2 : ℚ)), ((9 : ℚ), (3 : ℚ)), ((8 : ℚ), (3 : ℚ))],
      [((8 : ℚ), (4 : ℚ)), ((9 : ℚ), (4 : ℚ)), ((9 : ℚ), (5 : ℚ)), ((8 : ℚ), (5 : ℚ))],
      [((8 : ℚ), (6 : ℚ)), ((9 : ℚ), (6 : ℚ)), ((9 : ℚ), (7 : ℚ)), ((8 : ℚ), (7 : ℚ))],
      [((8 : ℚ), (8 : ℚ)), ((9 : ℚ), (8 : ℚ)), ((9 : ℚ), (9 : ℚ)), ((8 : ℚ), (9 : ℚ))]]
      [((9 : ℚ), (0 : ℚ)), ((9 : ℚ), (1 : ℚ)), ((9 : ℚ), (2 : ℚ)), ((9 : ℚ), (3 : ℚ)), ((9 : ℚ), (4 : ℚ)), ((9 : ℚ), (5 : ℚ)), ((9 : ℚ), (6 : ℚ)), ((9 : ℚ), (7 : ℚ)), ((9 : ℚ), (8 : ℚ)), ((9 : ℚ), (9 : ℚ))] =
      [[((0 : ℚ), (0 : ℚ)), ((1 : ℚ), (0 : ℚ)), ((1 : ℚ), (1 : ℚ)), ((0 : ℚ), (1 : ℚ))],
      [((0 : ℚ), (2 : ℚ)), ((1 : ℚ), (2 : ℚ)), ((1 : ℚ), (3 : ℚ)), ((0 : ℚ), (3 : ℚ))],
      [((0 : ℚ), (4 : ℚ)), ((1 : ℚ), (4 : ℚ)), ((1 : ℚ), (5 : ℚ)), ((0 : ℚ), (5 : ℚ))],
      [((0 : ℚ), (6 : ℚ)), ((1 : ℚ), (6 : ℚ)), ((1 : ℚ), (7 : ℚ)), ((0 : ℚ), (7 : ℚ))],
      [((0 : ℚ), (8 : ℚ)), ((1 : ℚ), (8 : ℚ)), ((1 : ℚ), (9 : ℚ)), ((0 : ℚ), (9 : ℚ))],
      [((2 : ℚ), (0 : ℚ)), ((3 : ℚ), (0 : ℚ)), ((3 : ℚ), (1 : ℚ)), ((2 : ℚ), (1 : ℚ))],
      [((2 : ℚ), (2 : ℚ)), ((3 : ℚ), (2 : ℚ)), ((3 : ℚ), (3 : ℚ)), ((2 : ℚ), (3 : ℚ))],
      [((2 : ℚ), (4 : ℚ)), ((3 : ℚ), (4 : ℚ)), ((3 : ℚ), (5 : ℚ)), ((2 : ℚ), (5 : ℚ))],
      [((2 : ℚ), (6 : ℚ)), ((3 : ℚ), (6 : ℚ)), ((3 : ℚ), (7 : ℚ)), ((2 : ℚ), (7 : ℚ))],
      [((2 : ℚ), (8 : ℚ)), ((3 : ℚ), (8 : ℚ)), ((3 : ℚ), (9 : ℚ)), ((2 : ℚ), (9 : ℚ))],
      [((4 : ℚ), (0 : ℚ)), ((5 : ℚ), (0 : ℚ)), ((5 : ℚ), (1 : ℚ)), ((4 : ℚ), (1 : ℚ))],
      [((4 : ℚ), (2 : ℚ)), ((5 : ℚ), (2 : ℚ)), ((5 : ℚ), (3 : ℚ)), ((4 : ℚ), (3 : ℚ))],
      [((4 : ℚ), (4 : ℚ)), ((5 : ℚ), (4 : ℚ)), ((5 : ℚ), (5 : ℚ)), ((4 : ℚ), (5 : ℚ))],
      [((4 : ℚ), (6 : ℚ)), ((5 : ℚ), (6 : ℚ)), ((5 : ℚ), (7 : ℚ)), ((4 : ℚ), (7 : ℚ))],
      [((4 : ℚ), (8 : ℚ)), ((5 : ℚ), (8 : ℚ)), ((5 : ℚ), (9 : ℚ)), ((4 : ℚ), (9 : ℚ))],
      [((6 : ℚ), (0 : ℚ)), ((7 : ℚ), (0 : ℚ)), ((7 : ℚ), (1 : ℚ)), ((6 : ℚ), (1 : ℚ))],
      [((6 : ℚ), (2 : ℚ)), ((7 : ℚ), (2 : ℚ)), ((7 : ℚ), (3 : ℚ)), ((6 : ℚ), (3 : ℚ))],
      [((6 : ℚ), (4 : ℚ)), ((7 : ℚ), (4 : ℚ)), ((7 : ℚ), (5 : ℚ)), ((6 : ℚ), (5 : ℚ))],
      [((6 : ℚ), (6 : ℚ)), ((7 : ℚ), (6 : ℚ)), ((7 : ℚ), (7 : ℚ)), ((6 : ℚ), (7 : ℚ))],
      [((6 : ℚ), (8 : ℚ)), ((7 : ℚ), (8 : ℚ)), ((7 : ℚ), (9 : ℚ)), ((6 : ℚ), (9 : ℚ))],
      [((8 : ℚ), (0 : ℚ)), ((9 : ℚ), (0 : ℚ)), ((9 : ℚ), (1 : ℚ)), ((8 : ℚ), (1 : ℚ))],
      [((8 : ℚ), (2 : ℚ)), ((9 : ℚ), (2 : ℚ)), ((9 : ℚ), (3 : ℚ)), ((8 : ℚ), (3 : ℚ))],
      [((8 : ℚ), (4 : ℚ)), ((9 : ℚ), (4 : ℚ)), ((9 : ℚ), (5 : ℚ)), ((8 : ℚ), (5 : ℚ))],
      [((8 : ℚ), (6 : ℚ)), ((9 : ℚ), (6 : ℚ)), ((9 : ℚ), (7 : ℚ)), ((8 : ℚ), (7 : ℚ))],
      [((8 : ℚ), (8 : ℚ)), ((9 : ℚ), (8 : ℚ)), ((9 : ℚ), (9 : ℚ)), ((8 : ℚ), (9 : ℚ))]] := by
    decide!
  rw [h0, hanch, List.foldl_append, hc0, List.foldl_append, hc1, List.foldl_append, hc2, List.foldl_append, hc3, List.foldl_append, hc4, List.foldl_append, hc5, List.foldl_append, hc6, List.foldl_append, hc7, List.foldl_append, hc8, hc9]

/-- Scenario 1 places exactly 25 shapes. -/
theorem scenario1_length :
    (place_shapes (containerPoly 10 10) unitSquare [Angle.a0] 1).length = 25 := by
  rw [scenario1_run]
  rfl

/-- The utilization of scenario 1 is 25 %. -/
theorem scenario1_utilization :
    utilizationOf (place_shapes (containerPoly 10 10) unitSquare [Angle.a0] 1)
      (containerPoly 10 10) = 25 := by
  rw [scenario1_run]
  decide!

/-- C4 counterexample: scenario 1 does not place 100 squares at 100 %
utilization. -/
theorem C4_counterexample :
    ¬ ((place_shapes (containerPoly 10 10) unitSquare [Angle.a0] 1).length = 100 ∧
       utilizationOf (place_shapes (containerPoly 10 10) unitSquare [Angle.a0] 1)
         (containerPoly 10 10) = 100) := by
  intro h
  have h25 := scenario1_length.symm.trans h.1
  exact absurd h25 (by norm_num)

/-- C4 amended: scenario 1 places exactly 25 non-overlapping unit squares
(spaced two units apart, since the predicate rejects shapes that merely touch)
and the resulting utilization is 25 %. -/
theorem C4_scenario1 :
    (place_shapes (containerPoly 10 10) unitSquare [Angle.a0] 1).length = 25 ∧
      utilizationOf (place_shapes (containerPoly 10 10) unitSquare [Angle.a0] 1)
        (containerPoly 10 10) = 25 :=
  ⟨scenario1_length, scenario1_utilization⟩

/-! ## Fan decomposition of the shoelace sum -/

/-- Planar cross product of two vectors. -/
def crossV (u v : Pt) : ℚ := u.1 * v.2 - u.2 * v.1

/-- Signed fan sum: the sum of the cross products of consecutive vertex pairs
viewed from the apex `v0`.  Equals the shoelace sum of `v0 :: rest`. -/
def fanSum (v0 : Pt) : List Pt → ℚ
  | a :: b :: t => crossV (a - v0) (b - v0) + fanSum v0 (b :: t)
  | _ => 0

/-- Sum of the unsigned areas of the fan triangles from the apex `v0`. -/
def fanAbsSum (v0 : Pt) : List Pt → ℚ
  | a :: b :: t => |crossV (a - v0) (b - v0)| / 2 + fanAbsSum v0 (b :: t)
  | _ => 0

/-- The shoelace sum of the ring starting at the head of the list, with the
wrap-around edge returning to `v0`. -/
def wrapSum (v0 : Pt) : List Pt → ℚ
  | [] => 0
  | [x] => crossV x v0
  | x :: y :: t => crossV x y + wrapSum v0 (y :: t)

theorem zip_wrap_eq_wrapSum (v0 : Pt) :
    ∀ l : List Pt,
      ((List.zip l (l.tail ++ [v0])).map (fun ab => ab.1.1 * ab.2.2 - ab.2.1 * ab.1.2)).sum =
        wrapSum v0 l
  | [] => rfl
  | [x] => by
    simp only [List.tail_cons, List.nil_append, List.zip_cons_cons, List.zip_nil_right,
      List.map_cons, List.map_nil, List.sum_cons, List.sum_nil, wrapSum, crossV]
    ring
  | x :: y :: t => by
    have ih := zip_wrap_eq_wrapSum v0 (y :: t)
    simp only [List.tail_cons] at ih ⊢
    rw [show (y :: t) ++ [v0] = y :: (t ++ [v0]) from rfl, List.zip_cons_cons, List.map_cons,
      List.sum_cons, ih, show wrapSum v0 (x :: y :: t) = crossV x y + wrapSum v0 (y :: t)
        from rfl]
    simp only [crossV]
    ring

theorem shoelaceSum_eq_wrapSum (v0 : Pt) (rest : List Pt) :
    shoelaceSum (v0 :: rest) = wrapSum v0 (v0 :: rest) := by
  rw [shoelaceSum]
  rw [show cyclicPairs (v0 :: rest) = List.zip (v0 :: rest) ((v0 :: rest).tail ++ [v0]) from rfl]
  exact zip_wrap_eq_wrapSum v0 (v0 :: rest)

theorem crossV_wrap_eq_fanSum (v0 : Pt) :
    ∀ (t : List Pt) (b : Pt), crossV v0 b + wrapSum v0 (b :: t) = fanSum v0 (b :: t)
  | [], b => by
    simp only [wrapSum, fanSum, crossV]
    ring
  | c :: t', b => by
    have ih := crossV_wrap_eq_fanSum v0 t' c
    rw [show wrapSum v0 (b :: c :: t') = crossV b c + wrapSum v0 (c :: t') from rfl,
      show fanSum v0 (b :: c :: t') = crossV (b - v0) (c - v0) + fanSum v0 (c :: t') from rfl,
      ← ih]
    simp only [crossV, Prod.fst_sub, Prod.snd_sub]
    ring

/-- The shoelace sum equals the signed fan sum from the first vertex. -/
theorem shoelaceSum_eq_fanSum (v0 : Pt) (rest : List Pt) :
    shoelaceSum (v0 :: rest) = fanSum v0 rest := by
  cases rest with
  | nil =>
    simp [shoelaceSum, cyclicPairs, fanSum]
  | cons b t =>
    rw [shoelaceSum_eq_wrapSum,
      show wrapSum v0 (v0 :: b :: t) = crossV v0 b + wrapSum v0 (b :: t) from rfl]
    exact crossV_wrap_eq_fanSum v0 t b

theorem fanAbsSum_nonneg (v0 : Pt) : ∀ rest : List Pt, 0 ≤ fanAbsSum v0 rest
  | [] => le_refl 0
  | [a] => le_refl 0
  | a :: b :: t => by
    have ih := fanAbsSum_nonneg v0 (b :: t)
    rw [show fanAbsSum v0 (a :: b :: t) = |crossV (a - v0) (b - v0)| / 2 + fanAbsSum v0 (b :: t)
      from rfl]
    positivity

theorem abs_fanSum_le (v0 : Pt) : ∀ rest : List Pt, |fanSum v0 rest| / 2 ≤ fanAbsSum v0 rest
  | [] => by simp [fanSum, fanAbsSum]
  | [a] => by simp [fanSum, fanAbsSum]
  | a :: b :: t => by
    have ih := abs_fanSum_le v0 (b :: t)
    rw [show fanSum v0 (a :: b :: t) = crossV (a - v0) (b - v0) + fanSum v0 (b :: t) from rfl,
      show fanAbsSum v0 (a :: b :: t) = |crossV (a - v0) (b - v0)| / 2 + fanAbsSum v0 (b :: t)
        from rfl]
    calc |crossV (a - v0) (b - v0) + fanSum v0 (b :: t)| / 2 ≤
        (|crossV (a - v0) (b - v0)| + |fanSum v0 (b :: t)|) / 2 := by
          gcongr
          exact abs_add _ _
      _ = |crossV (a - v0) (b - v0)| / 2 + |fanSum v0 (b :: t)| / 2 := by ring
      _ ≤ |crossV (a - v0) (b - v0)| / 2 + fanAbsSum v0 (b :: t) := by gcongr

/-! ## Rigid transforms preserve the fan structure -/

/-- A point map that preserves cross products of difference vectors
(every translation and rotation does). -/
def CrossPreserving (f : Pt → Pt) : Prop :=
  ∀ u v w : Pt, crossV (f u - f w) (f v - f w) = crossV (u - w) (v - w)

theorem crossPreserving_translate (x y : ℚ) :
    CrossPreserving (fun p => (p.1 + x, p.2 + y)) := by
  intro u v w
  simp only [crossV, Prod.fst_sub, Prod.snd_sub]
  ring

theorem crossPreserving_rot (c : Pt) (co si : ℚ) (h : co ^ 2 + si ^ 2 = 1) :
    CrossPreserving (fun p =>
      (c.1 + co * (p.1 - c.1) - si * (p.2 - c.2),
        c.2 + si * (p.1 - c.1) + co * (p.2 - c.2))) := by
  intro u v w
  simp only [crossV, Prod.fst_sub, Prod.snd_sub]
  linear_combination ((u.1 - w.1) * (v.2 - w.2) - (u.2 - w.2) * (v.1 - w.1)) * h

theorem cosA_sq_add_sinA_sq (ang : Angle) : cosA ang ^ 2 + sinA ang ^ 2 = 1 := by
  cases ang <;> norm_num [cosA, sinA]

theorem fanSum_map {f : Pt → Pt} (hf : CrossPreserving f) (v0 : Pt) :
    ∀ rest : List Pt, fanSum (f v0) (rest.map f) = fanSum v0 rest
  | [] => rfl
  | [a] => rfl
  | a :: b :: t => by
    have ih := fanSum_map hf v0 (b :: t)
    rw [List.map_cons, List.map_cons,
      show fanSum (f v0) (f a :: f b :: t.map f) =
        crossV (f a - f v0) (f b - f v0) + fanSum (f v0) (f b :: t.map f) from rfl,
      show fanSum v0 (a :: b :: t) = crossV (a - v0) (b - v0) + fanSum v0 (b :: t) from rfl,
      hf a b v0, ← List.map_cons f b t, ih]

theorem shoelaceSum_map {f : Pt → Pt} (hf : CrossPreserving f) (P : Pgon) :
    shoelaceSum (P.map f) = shoelaceSum P := by
  cases P with
  | nil => rfl
  | cons v0 rest =>
    rw [List.map_cons, shoelaceSum_eq_fanSum, shoelaceSum_eq_fanSum]
    exact fanSum_map hf v0 rest

theorem areaB_map {f : Pt → Pt} (hf : CrossPreserving f) (P : Pgon) :
    areaB (P.map f) = areaB P := by
  rw [areaB, areaB, shoelaceSum_map hf]

/-- `translate` is a vertexwise map. -/
theorem translateP_eq_map (P : Pgon) (x y : ℚ) :
    translateP P x y = P.map (fun p => (p.1 + x, p.2 + y)) := rfl

/-- `rotate` is a vertexwise map (about the fixed centroid of the input). -/
theorem rotateShape_eq_map (P : Pgon) (ang : Angle) :
    rotateShape P ang = P.map (fun p =>
      ((centroidOf P).1 + cosA ang * (p.1 - (centroidOf P).1) -
          sinA ang * (p.2 - (centroidOf P).2),
        (centroidOf P).2 + sinA ang * (p.1 - (centroidOf P).1) +
          cosA ang * (p.2 - (centroidOf P).2))) := rfl

/-- Rotation preserves the polygon's area (exactly, in the embedding). -/
theorem areaB_rotateShape (P : Pgon) (ang : Angle) : areaB (rotateShape P ang) = areaB P := by
  rw [rotateShape_eq_map]
  exact areaB_map (crossPreserving_rot _ _ _ (cosA_sq_add_sinA_sq ang)) P

/-- Translation preserves the polygon's area. -/
theorem areaB_translateP (P : Pgon) (x y : ℚ) : areaB (translateP P x y) = areaB P := by
  rw [translateP_eq_map]
  exact areaB_map (crossPreserving_translate x y) P

/-! ## Convex position -/

/-- Fan-convex position with respect to the first vertex: viewed from the
first vertex, the remaining vertices appear in counter-clockwise order.  The
convex hulls produced by the external hull collaborator (vertices in
counter-clockwise order) satisfy this, as do their rotations and
translations. -/
def FanCCW : Pgon → Prop
  | [] => True
  | v0 :: rest => rest.Pairwise (fun u w => 0 ≤ crossV (u - v0) (w - v0))

theorem fanCCW_map {f : Pt → Pt} (hf : CrossPreserving f) (P : Pgon)
    (h : FanCCW P) : FanCCW (P.map f) := by
  cases P with
  | nil => exact trivial
  | cons v0 rest =>
    rw [List.map_cons]
    rw [show FanCCW (f v0 :: rest.map f) =
      (rest.map f).Pairwise (fun u w => 0 ≤ crossV (u - f v0) (w - f v0)) from rfl]
    rw [List.pairwise_map]
    rw [show FanCCW (v0 :: rest) =
      rest.Pairwise (fun u w => 0 ≤ crossV (u - v0) (w - v0)) from rfl] at h
    refine h.imp ?_
    intro u w huw
    rw [hf u w v0]
    exact huw

theorem fanCCW_rotateShape (P : Pgon) (ang : Angle) (h : FanCCW P) :
    FanCCW (rotateShape P ang) := by
  rw [rotateShape_eq_map]
  exact fanCCW_map (crossPreserving_rot _ _ _ (cosA_sq_add_sinA_sq ang)) P h

theorem fanCCW_translateP (P : Pgon) (x y : ℚ) (h : FanCCW P) :
    FanCCW (translateP P x y) := by
  rw [translateP_eq_map]
  exact fanCCW_map (crossPreserving_translate x y) P h

/-- The area of the container polygon is `W * H`. -/
theorem areaB_containerPoly (W H : ℚ) (hW : 0 ≤ W) (hH : 0 ≤ H) :
    areaB (containerPoly W H) = W * H := by
  rw [areaB, show shoelaceSum (containerPoly W H) = 2 * (W * H) by
    simp only [shoelaceSum, containerPoly, cyclicPairs, List.zip_cons_cons, List.map_cons,
      List.sum_cons, List.nil_append, List.cons_append, List.zip_nil_right, List.map_nil,
      List.sum_nil]
    ring]
  rw [abs_of_nonneg (by positivity)]
  ring

/-! ## Every placed shape is a transformed copy of the base shape -/

/-- Shapes appended by the sweep all come from the rotation dict, translated
by some anchor offset. -/
theorem foldl_placeAtAnchor_shape (container : Pgon) (rotated : List (Angle × Pgon))
    (anchors : List (ℚ × ℚ)) :
    ∀ init : List Pgon,
      (∀ P ∈ init, ∃ ar ∈ rotated, ∃ x y : ℚ, P = translateP ar.2 x y) →
      ∀ P ∈ anchors.foldl (placeAtAnchor container rotated) init,
        ∃ ar ∈ rotated, ∃ x y : ℚ, P = translateP ar.2 x y := by
  induction anchors with
  | nil => intro init h; exact h
  | cons a rest ih =>
    intro init h
    refine ih (placeAtAnchor container rotated init a) ?_
    intro P hP
    unfold placeAtAnchor at hP
    cases e : tryAnglesAt rotated a.1 a.2 init container with
    | none =>
      rw [e] at hP
      exact h P hP
    | some c =>
      rw [e] at hP
      rcases List.mem_append.mp hP with hP | hP
      · exact h P hP
      · rcases List.mem_singleton.mp hP with rfl
        rw [tryAnglesAt_eq_find] at e
        have hmem := List.mem_of_find?_eq_some e
        rcases List.mem_map.mp hmem with ⟨ar, har, hc⟩
        exact ⟨ar, har, a.1, a.2, hc.symm⟩

/-- Every polygon in the output of `place_shapes` is the base shape rotated by
an angle of the list and translated by some offset. -/
theorem place_shapes_mem_shape (container shape : Pgon) (angles : List Angle)
    (grid_step : ℚ) :
    ∀ P ∈ place_shapes container shape angles grid_step,
      ∃ ang : Angle, ∃ x y : ℚ, P = translateP (rotateShape shape ang) x y := by
  intro P hP
  unfold place_shapes at hP
  have h := foldl_placeAtAnchor_shape _ _ _ []
    (fun Q hQ => absurd hQ (List.not_mem_nil Q)) P hP
  rcases h with ⟨ar, har, x, y, hPeq⟩
  rcases List.mem_map.mp har with ⟨ang, _, harr⟩
  exact ⟨ang, x, y, by rw [hPeq, ← harr]⟩

/-- A placed shape has the area of the base shape. -/
theorem placed_areaB (container shape : Pgon) (angles : List Angle) (grid_step : ℚ) :
    ∀ P ∈ place_shapes container shape angles grid_step, areaB P = areaB shape := by
  intro P hP
  rcases place_shapes_mem_shape container shape angles grid_step P hP with ⟨ang, x, y, rfl⟩
  rw [areaB_translateP, areaB_rotateShape]

/-- A placed shape inherits fan-convex position from the base shape. -/
theorem placed_fanCCW (container shape : Pgon) (angles : List Angle) (grid_step : ℚ)
    (h : FanCCW shape) :
    ∀ P ∈ place_shapes container shape angles grid_step, FanCCW P := by
  intro P hP
  rcases place_shapes_mem_shape container shape angles grid_step P hP with ⟨ang, x, y, rfl⟩
  exact fanCCW_translateP _ _ _ (fanCCW_rotateShape _ _ h)

/-! ## Volume of a triangle -/

/-- The linear map sending the standard basis to the vectors `a` and `b`. -/
noncomputable def mulVecL (a b : ℝ × ℝ) : (ℝ × ℝ) →ₗ[ℝ] (ℝ × ℝ) where
  toFun := fun st => (st.1 * a.1 + st.2 * b.1, st.1 * a.2 + st.2 * b.2)
  map_add' := by
    intro x y
    rw [Prod.ext_iff]
    exact ⟨by simp only [Prod.fst_add, Prod.snd_add]; ring,
      by simp only [Prod.fst_add, Prod.snd_add]; ring⟩
  map_smul' := by
    intro c x
    rw [Prod.ext_iff]
    exact ⟨by simp only [Prod.smul_fst, Prod.smul_snd, smul_eq_mul, RingHom.id_apply]; ring,
      by simp only [Prod.smul_fst, Prod.smul_snd, smul_eq_mul, RingHom.id_apply]; ring⟩

/-- Real planar cross product. -/
def crossR (u v : ℝ × ℝ) : ℝ := u.1 * v.2 - u.2 * v.1

theorem det_mulVecL (a b : ℝ × ℝ) : LinearMap.det (mulVecL a b) = crossR a b := by
  have hM : mulVecL a b = Matrix.toLin (Basis.finTwoProd ℝ) (Basis.finTwoProd ℝ)
      (Matrix.of ![![a.1, b.1], ![a.2, b.2]]) := by
    apply (Basis.finTwoProd ℝ).ext
    intro i
    fin_cases i <;>
      simp [Matrix.toLin_self, mulVecL, Basis.finTwoProd_zero, Basis.finTwoProd_one,
        Fin.sum_univ_two, Prod.ext_iff]
  rw [hM, ← LinearMap.det_toMatrix (Basis.finTwoProd ℝ), LinearMap.toMatrix_toLin,
    Matrix.det_fin_two, crossR]
  simp only [Matrix.of_apply, Matrix.cons_val_zero, Matrix.cons_val_one, Matrix.head_cons,
    Matrix.head_fin_const]
  ring

/-- The standard (closed) triangle with vertices `(0,0)`, `(1,0)`, `(0,1)`. -/
def T0 : Set (ℝ × ℝ) := {st | 0 ≤ st.1 ∧ 0 ≤ st.2 ∧ st.1 + st.2 ≤ 1}

theorem isLinearMap_fst : IsLinearMap ℝ (fun st : ℝ × ℝ => st.1) :=
  ⟨fun _ _ => rfl, fun _ _ => rfl⟩

theorem isLinearMap_snd : IsLinearMap ℝ (fun st : ℝ × ℝ => st.2) :=
  ⟨fun _ _ => rfl, fun _ _ => rfl⟩

theorem isLinearMap_addCoords : IsLinearMap ℝ (fun st : ℝ × ℝ => st.1 + st.2) := by
  constructor
  · intro x y
    simp only [Prod.fst_add, Prod.snd_add]
    ring
  · intro c x
    simp only [Prod.smul_fst, Prod.smul_snd, smul_eq_mul]
    ring

theorem convex_T0 : Convex ℝ T0 := by
  have heq : T0 = {st : ℝ × ℝ | 0 ≤ st.1} ∩
      ({st : ℝ × ℝ | 0 ≤ st.2} ∩ {st : ℝ × ℝ | st.1 + st.2 ≤ 1}) := by
    ext st
    simp only [T0, Set.mem_setOf_eq, Set.mem_inter_iff]
  rw [heq]
  exact (convex_halfSpace_ge isLinearMap_fst 0).inter
    ((convex_halfSpace_ge isLinearMap_snd 0).inter
      (convex_halfSpace_le isLinearMap_addCoords 1))

/-- The reflection of the plane through the center of the unit square. -/
def flipT (x : ℝ × ℝ) : ℝ × ℝ := (1 - x.1, 1 - x.2)

theorem vol_image_add (v : ℝ × ℝ) (s : Set (ℝ × ℝ)) :
    MeasureTheory.volume ((fun x => v + x) '' s) = MeasureTheory.volume s := by
  rw [Set.image_add_left]
  exact MeasureTheory.measure_preimage_add MeasureTheory.volume (-v) s

theorem vol_image_flipT (s : Set (ℝ × ℝ)) :
    MeasureTheory.volume (flipT '' s) = MeasureTheory.volume s := by
  have h1 : flipT '' s = (fun z => ((1 : ℝ), (1 : ℝ)) + z) '' ((mulVecL (-1, 0) (0, -1)) '' s) := by
    rw [Set.image_image]
    apply congrFun
    apply congrArg
    funext x
    show flipT x = ((1 : ℝ), (1 : ℝ)) + ((x.1 * (-1) + x.2 * 0, x.1 * 0 + x.2 * (-1)) : ℝ × ℝ)
    rw [flipT, Prod.ext_iff]
    constructor <;> simp <;> ring
  rw [h1, vol_image_add, MeasureTheory.Measure.addHaar_image_linearMap, det_mulVecL]
  rw [show crossR ((-1 : ℝ), (0 : ℝ)) ((0 : ℝ), (-1 : ℝ)) = 1 by rw [crossR]; norm_num]
  simp

theorem convex_flipT_image {s : Set (ℝ × ℝ)} (hs : Convex ℝ s) : Convex ℝ (flipT '' s) := by
  intro x hx y hy a b ha hb hab
  rcases hx with ⟨u, hu, rfl⟩
  rcases hy with ⟨v, hv, rfl⟩
  refine ⟨a • u + b • v, hs hu hv ha hb hab, ?_⟩
  rw [flipT, flipT, flipT, Prod.ext_iff]
  simp only [Prod.fst_add, Prod.snd_add, Prod.smul_fst, Prod.smul_snd, smul_eq_mul]
  constructor <;> nlinarith [hab]

/-- The diagonal line of the unit square is Lebesgue-null. -/
theorem vol_diag_line : MeasureTheory.volume {x : ℝ × ℝ | x.1 + x.2 = 1} = 0 := by
  let f : (ℝ × ℝ) →ₗ[ℝ] ℝ :=
    { toFun := fun x => x.1 + x.2
      map_add' := by
        intro x y
        simp only [Prod.fst_add, Prod.snd_add]
        ring
      map_smul' := by
        intro c x
        simp only [Prod.smul_fst, Prod.smul_snd, smul_eq_mul, RingHom.id_apply]
        ring }
  have hker : LinearMap.ker f ≠ ⊤ := by
    intro htop
    have h1 : ((1 : ℝ), (0 : ℝ)) ∈ LinearMap.ker f := by
      rw [htop]
      trivial
    have h2 : f ((1 : ℝ), (0 : ℝ)) = 0 := LinearMap.mem_ker.mp h1
    norm_num [f] at h2
  have heq : {x : ℝ × ℝ | x.1 + x.2 = 1} =
      (fun z => ((1 : ℝ), (0 : ℝ)) + z) '' (LinearMap.ker f : Set (ℝ × ℝ)) := by
    ext x
    simp only [Set.mem_setOf_eq, Set.mem_image, SetLike.mem_coe, LinearMap.mem_ker]
    constructor
    · intro hx
      refine ⟨x - ((1 : ℝ), (0 : ℝ)), ?_, by rw [Prod.ext_iff]; constructor <;> simp⟩
      show (x - ((1 : ℝ), (0 : ℝ))).1 + (x - ((1 : ℝ), (0 : ℝ))).2 = 0
      simp only [Prod.fst_sub, Prod.snd_sub]
      linarith
    · rintro ⟨y, hy, rfl⟩
      have hy' : y.1 + y.2 = 0 := hy
      show (((1 : ℝ), (0 : ℝ)) + y).1 + (((1 : ℝ), (0 : ℝ)) + y).2 = 1
      simp only [Prod.fst_add, Prod.snd_add]
      linarith
  rw [heq, vol_image_add]
  exact MeasureTheory.Measure.addHaar_submodule MeasureTheory.volume (LinearMap.ker f) hker

/-- The unit square splits into the standard triangle and its reflection. -/
theorem square_eq_T0_union :
    Set.Icc (0 : ℝ) 1 ×ˢ Set.Icc (0 : ℝ) 1 = T0 ∪ flipT '' T0 := by
  ext x
  simp only [Set.mem_prod, Set.mem_Icc, Set.mem_union, T0, Set.mem_setOf_eq, Set.mem_image,
    flipT, Prod.ext_iff]
  constructor
  · rintro ⟨⟨h1, h2⟩, h3, h4⟩
    rcases le_total (x.1 + x.2) 1 with h | h
    · exact Or.inl ⟨h1, h3, h⟩
    · refine Or.inr ⟨(1 - x.1, 1 - x.2), ⟨?_, ?_, ?_⟩, ?_, ?_⟩ <;> simp <;> linarith
  · rintro (⟨h1, h2, h3⟩ | ⟨y, ⟨hy1, hy2, hy3⟩, hx1, hx2⟩)
    · exact ⟨⟨h1, by linarith⟩, h2, by linarith⟩
    · constructor
      · constructor <;> [rw [← hx1]; rw [← hx1]] <;> linarith
      · constructor <;> [rw [← hx2]; rw [← hx2]] <;> linarith

/-- The standard triangle has volume one half. -/
theorem vol_T0 : MeasureTheory.volume T0 = (2 : ENNReal)⁻¹ := by
  have hsq : MeasureTheory.volume (Set.Icc (0 : ℝ) 1 ×ˢ Set.Icc (0 : ℝ) 1) = 1 := by
    rw [MeasureTheory.Measure.volume_eq_prod, MeasureTheory.Measure.prod_prod, Real.volume_Icc]
    norm_num
  have hflip := vol_image_flipT T0
  have hinter : T0 ∩ flipT '' T0 ⊆ {x : ℝ × ℝ | x.1 + x.2 = 1} := by
    rintro x ⟨hx1, y, hyT0, rfl⟩
    have h1 : (flipT y).1 + (flipT y).2 ≤ 1 := hx1.2.2
    have h2 : y.1 + y.2 ≤ 1 := hyT0.2.2
    show (flipT y).1 + (flipT y).2 = 1
    simp only [flipT] at h1 ⊢
    linarith
  have hAE : MeasureTheory.AEDisjoint MeasureTheory.volume T0 (flipT '' T0) :=
    MeasureTheory.measure_mono_null hinter vol_diag_line
  have hNM : MeasureTheory.NullMeasurableSet (flipT '' T0) MeasureTheory.volume :=
    (convex_flipT_image convex_T0).nullMeasurableSet _
  have hun : MeasureTheory.volume (T0 ∪ flipT '' T0) =
      MeasureTheory.volume T0 + MeasureTheory.volume (flipT '' T0) :=
    MeasureTheory.measure_union₀ hNM hAE
  have h2 : (2 : ENNReal) * MeasureTheory.volume T0 = 1 := by
    calc (2 : ENNReal) * MeasureTheory.volume T0
        = MeasureTheory.volume T0 + MeasureTheory.volume (flipT '' T0) := by
          rw [two_mul, hflip]
      _ = MeasureTheory.volume (T0 ∪ flipT '' T0) := hun.symm
      _ = 1 := by rw [← square_eq_T0_union]; exact hsq
  calc MeasureTheory.volume T0
      = (2 : ENNReal)⁻¹ * (2 * MeasureTheory.volume T0) := by
        rw [← mul_assoc, ENNReal.inv_mul_cancel (by norm_num) (by norm_num), one_mul]
    _ = (2 : ENNReal)⁻¹ * 1 := by rw [h2]
    _ = (2 : ENNReal)⁻¹ := mul_one _

/-- The closed triangle spanned at `p` by the vectors `a` and `b`, as the
affine image of the standard triangle. -/
def TriSet (p a b : ℝ × ℝ) : Set (ℝ × ℝ) :=
  (fun st : ℝ × ℝ => p + (st.1 • a + st.2 • b)) '' T0

theorem vol_TriSet (p a b : ℝ × ℝ) :
    MeasureTheory.volume (TriSet p a b) = ENNReal.ofReal (|crossR a b| / 2) := by
  have h1 : TriSet p a b = (fun z => p + z) '' ((mulVecL a b) '' T0) := by
    rw [TriSet, Set.image_image]
    apply congrFun
    apply congrArg
    funext st
    show p + (st.1 • a + st.2 • b) = p + mulVecL a b st
    congr 1
  rw [h1, vol_image_add, MeasureTheory.Measure.addHaar_image_linearMap, det_mulVecL, vol_T0]
  rw [show |crossR a b| / 2 = |crossR a b| * (2 : ℝ)⁻¹ by ring,
    ENNReal.ofReal_mul (abs_nonneg _),
    ENNReal.ofReal_inv_of_pos (by norm_num : (0 : ℝ) < 2)]
  norm_num

/-- The spanned triangle is inside the convex hull of its three corners. -/
theorem triSet_subset_hull (p q r : ℝ × ℝ) :
    TriSet p (q - p) (r - p) ⊆ convexHull ℝ {p, q, r} := by
  rintro x ⟨st, ⟨hs, ht, hsum⟩, rfl⟩
  show p + (st.1 • (q - p) + st.2 • (r - p)) ∈ convexHull ℝ {p, q, r}
  have hci := convex_convexHull ℝ ({p, q, r} : Set (ℝ × ℝ))
  have hp : p ∈ convexHull ℝ ({p, q, r} : Set (ℝ × ℝ)) :=
    subset_convexHull _ _ (by simp)
  have hq : q ∈ convexHull ℝ ({p, q, r} : Set (ℝ × ℝ)) :=
    subset_convexHull _ _ (by simp)
  have hr : r ∈ convexHull ℝ ({p, q, r} : Set (ℝ × ℝ)) :=
    subset_convexHull _ _ (by simp)
  rcases eq_or_lt_of_le (add_nonneg hs ht) with hu0 | hu0
  · have hs0 : st.1 = 0 := by linarith
    have ht0 : st.2 = 0 := by linarith
    have hx : p + (st.1 • (q - p) + st.2 • (r - p)) = p := by
      rw [hs0, ht0]
      simp
    rw [hx]
    exact hp
  · have hy : (st.1 / (st.1 + st.2)) • q + (st.2 / (st.1 + st.2)) • r ∈
        convexHull ℝ ({p, q, r} : Set (ℝ × ℝ)) := by
      refine hci hq hr (div_nonneg hs (le_of_lt hu0)) (div_nonneg ht (le_of_lt hu0)) ?_
      field_simp
    have hx : (1 - (st.1 + st.2)) • p + (st.1 + st.2) •
        ((st.1 / (st.1 + st.2)) • q + (st.2 / (st.1 + st.2)) • r) ∈
        convexHull ℝ ({p, q, r} : Set (ℝ × ℝ)) := by
      refine hci hp hy (by linarith) (le_of_lt hu0) (by ring)
    have heq : p + (st.1 • (q - p) + st.2 • (r - p)) =
        (1 - (st.1 + st.2)) • p + (st.1 + st.2) •
          ((st.1 / (st.1 + st.2)) • q + (st.2 / (st.1 + st.2)) • r) := by
      rw [Prod.ext_iff]
      simp only [Prod.fst_add, Prod.snd_add, Prod.smul_fst, Prod.smul_snd, Prod.fst_sub,
        Prod.snd_sub, smul_eq_mul]
      constructor <;> field_simp <;> ring
    rw [heq]
    exact hx

/-! ## Separation helpers -/

theorem toReal_sub (u v : Pt) : toReal (u - v) = toReal u - toReal v := by
  rw [toReal, toReal, toReal, Prod.ext_iff]
  constructor <;> simp [Prod.fst_sub, Prod.snd_sub]

theorem crossR_toReal (u v : Pt) : crossR (toReal u) (toReal v) = ((crossV u v : ℚ) : ℝ) := by
  rw [crossR, crossV, toReal, toReal]
  push_cast
  ring

theorem crossR_self_sub (x d : ℝ × ℝ) : crossR (x - x) d = 0 := by
  rw [crossR]
  simp

theorem toReal_injective : Function.Injective toReal := by
  intro u v h
  rw [toReal, toReal, Prod.ext_iff] at h
  rcases h with ⟨h1, h2⟩
  simp only at h1 h2
  exact Prod.ext (by exact_mod_cast h1) (by exact_mod_cast h2)

/-- The linear functional `x ↦ crossR x d`. -/
noncomputable def crossL (d : ℝ × ℝ) : (ℝ × ℝ) →ₗ[ℝ] ℝ where
  toFun := fun x => crossR x d
  map_add' := by
    intro x y
    simp only [crossR, Prod.fst_add, Prod.snd_add]
    ring
  map_smul' := by
    intro c x
    simp only [crossR, Prod.smul_fst, Prod.smul_snd, smul_eq_mul, RingHom.id_apply]
    ring

theorem crossL_ker_ne_top {d : ℝ × ℝ} (hd : d ≠ 0) : LinearMap.ker (crossL d) ≠ ⊤ := by
  intro htop
  have hz : ((-d.2, d.1) : ℝ × ℝ) ∈ LinearMap.ker (crossL d) := by
    rw [htop]
    trivial
  have hz0 : crossL d (-d.2, d.1) = 0 := LinearMap.mem_ker.mp hz
  have hzv : crossL d (-d.2, d.1) = -(d.1 ^ 2 + d.2 ^ 2) := by
    show crossR (-d.2, d.1) d = -(d.1 ^ 2 + d.2 ^ 2)
    rw [crossR]
    ring
  have hd2 : d.1 ^ 2 + d.2 ^ 2 = 0 := by
    rw [hzv] at hz0
    linarith
  apply hd
  have h1 : d.1 = 0 := by nlinarith [sq_nonneg d.1, sq_nonneg d.2]
  have h2 : d.2 = 0 := by nlinarith [sq_nonneg d.1, sq_nonneg d.2]
  rw [Prod.ext_iff]
  exact ⟨h1, h2⟩

/-- A level set of a nonzero linear functional on the plane is Lebesgue-null. -/
theorem vol_level_set (g : (ℝ × ℝ) →ₗ[ℝ] ℝ) (hg : LinearMap.ker g ≠ ⊤) (x₀ : ℝ × ℝ) :
    MeasureTheory.volume {x : ℝ × ℝ | g x = g x₀} = 0 := by
  have heq : {x : ℝ × ℝ | g x = g x₀} =
      (fun z => x₀ + z) '' (LinearMap.ker g : Set (ℝ × ℝ)) := by
    ext x
    simp only [Set.mem_setOf_eq, Set.mem_image, SetLike.mem_coe, LinearMap.mem_ker]
    constructor
    · intro hx
      refine ⟨x - x₀, ?_, by simp⟩
      rw [map_sub, hx, sub_self]
    · rintro ⟨y, hy, rfl⟩
      rw [map_add, hy, add_zero]
  rw [heq, vol_image_add]
  exact MeasureTheory.Measure.addHaar_submodule MeasureTheory.volume (LinearMap.ker g) hg

/-- Two sets on weakly opposite sides of a line are almost-everywhere
disjoint. -/
theorem aedisjoint_of_separated (g : (ℝ × ℝ) →ₗ[ℝ] ℝ) (hg : LinearMap.ker g ≠ ⊤)
    (x₀ : ℝ × ℝ) {A B : Set (ℝ × ℝ)}
    (hA : A ⊆ {x | g x₀ ≤ g x}) (hB : B ⊆ {x | g x ≤ g x₀}) :
    MeasureTheory.AEDisjoint MeasureTheory.volume A B := by
  have hsub : A ∩ B ⊆ {x : ℝ × ℝ | g x = g x₀} := by
    rintro x ⟨hxA, hxB⟩
    exact le_antisymm (hB hxB) (hA hxA)
  exact MeasureTheory.measure_mono_null hsub (vol_level_set g hg x₀)

theorem mem_vertexSet_of_mem {q : Pt} {P : Pgon} (h : q ∈ P) : toReal q ∈ vertexSet P :=
  ⟨q, h, rfl⟩

theorem polySet_mono {P Q : Pgon} (h : ∀ q ∈ P, q ∈ Q) : polySet P ⊆ polySet Q := by
  apply convexHull_mono
  rintro x ⟨q, hq, rfl⟩
  exact ⟨q, h q hq, rfl⟩

theorem convex_polySet (P : Pgon) : Convex ℝ (polySet P) := convex_convexHull ℝ _

/-! ## The fan triangles fit inside the hull -/

theorem crossV_antisymm (u w : Pt) : crossV u w = -crossV w u := by
  rw [crossV, crossV]
  ring

/-- For a polygon in fan-convex position, the total unsigned area of the fan
triangles is at most the Lebesgue volume of the polygon's convex hull: the
triangles are pairwise separated by the fan lines through the apex. -/
theorem fanAbsSum_le_volume (v0 : Pt) :
    ∀ rest : List Pt, rest.Pairwise (fun u w => 0 ≤ crossV (u - v0) (w - v0)) →
      ENNReal.ofReal ((fanAbsSum v0 rest : ℚ) : ℝ) ≤
        MeasureTheory.volume (polySet (v0 :: rest))
  | [] => by
    intro _
    rw [show fanAbsSum v0 [] = 0 from rfl]
    simp
  | [a] => by
    intro _
    rw [show fanAbsSum v0 [a] = 0 from rfl]
    simp
  | a :: b :: t => by
    intro hp
    have hab : 0 ≤ crossV (a - v0) (b - v0) :=
      (List.pairwise_cons.mp hp).1 b (List.mem_cons_self _ _)
    have hp' := (List.pairwise_cons.mp hp).2
    have ih := fanAbsSum_le_volume v0 (b :: t) hp'
    have hrec : fanAbsSum v0 (a :: b :: t) =
        |crossV (a - v0) (b - v0)| / 2 + fanAbsSum v0 (b :: t) := rfl
    have hKsub : polySet (v0 :: b :: t) ⊆ polySet (v0 :: a :: b :: t) := by
      apply polySet_mono
      intro q hq
      rcases List.mem_cons.mp hq with rfl | hq
      · exact List.mem_cons_self _ _
      · exact List.mem_cons_of_mem _ (List.mem_cons_of_mem _ hq)
    have hKnm : MeasureTheory.NullMeasurableSet (polySet (v0 :: b :: t))
        MeasureTheory.volume :=
      (convex_polySet _).nullMeasurableSet _
    have hTsub : convexHull ℝ {toReal v0, toReal a, toReal b} ⊆
        polySet (v0 :: a :: b :: t) := by
      apply convexHull_min _ (convex_polySet _)
      intro x hx
      simp only [Set.mem_insert_iff, Set.mem_singleton_iff] at hx
      rcases hx with rfl | rfl | rfl
      · exact subset_convexHull _ _ (mem_vertexSet_of_mem (List.mem_cons_self _ _))
      · exact subset_convexHull _ _
          (mem_vertexSet_of_mem (List.mem_cons_of_mem _ (List.mem_cons_self _ _)))
      · exact subset_convexHull _ _
          (mem_vertexSet_of_mem (List.mem_cons_of_mem _
            (List.mem_cons_of_mem _ (List.mem_cons_self _ _))))
    have hTvol : ENNReal.ofReal ((|crossV (a - v0) (b - v0)| / 2 : ℚ) : ℝ) ≤
        MeasureTheory.volume (convexHull ℝ {toReal v0, toReal a, toReal b}) := by
      have hsub := triSet_subset_hull (toReal v0) (toReal a) (toReal b)
      have hvol := vol_TriSet (toReal v0) (toReal a - toReal v0) (toReal b - toReal v0)
      have hcast : |crossR (toReal a - toReal v0) (toReal b - toReal v0)| / 2 =
          ((|crossV (a - v0) (b - v0)| / 2 : ℚ) : ℝ) := by
        rw [← toReal_sub, ← toReal_sub, crossR_toReal]
        push_cast
        ring
      calc ENNReal.ofReal ((|crossV (a - v0) (b - v0)| / 2 : ℚ) : ℝ)
          = MeasureTheory.volume
              (TriSet (toReal v0) (toReal a - toReal v0) (toReal b - toReal v0)) := by
            rw [hvol, hcast]
        _ ≤ MeasureTheory.volume (convexHull ℝ {toReal v0, toReal a, toReal b}) :=
            MeasureTheory.measure_mono hsub
    by_cases hbv : b = v0
    · have hzero : crossV (a - v0) (b - v0) = 0 := by
        rw [hbv, sub_self, crossV]
        simp
      rw [hrec, hzero]
      simp only [abs_zero, zero_div, zero_add]
      exact le_trans ih (MeasureTheory.measure_mono hKsub)
    · have hd : toReal b - toReal v0 ≠ 0 := by
        intro h0
        exact hbv (toReal_injective (by rwa [sub_eq_zero] at h0))
      have hker := crossL_ker_ne_top hd
      have hgv0 : ∀ x : ℝ × ℝ,
          crossL (toReal b - toReal v0) x - crossL (toReal b - toReal v0) (toReal v0) =
            crossR (x - toReal v0) (toReal b - toReal v0) := by
        intro x
        show crossR x _ - crossR (toReal v0) _ = _
        rw [crossR, crossR, crossR]
        simp only [Prod.fst_sub, Prod.snd_sub]
        ring
      have hTside : convexHull ℝ {toReal v0, toReal a, toReal b} ⊆
          {x : ℝ × ℝ | crossL (toReal b - toReal v0) (toReal v0) ≤
            crossL (toReal b - toReal v0) x} := by
        apply convexHull_min _
          (convex_halfSpace_ge (LinearMap.isLinear (crossL (toReal b - toReal v0))) _)
        intro x hx
        simp only [Set.mem_insert_iff, Set.mem_singleton_iff] at hx
        rcases hx with rfl | rfl | rfl
        · show crossL (toReal b - toReal v0) (toReal v0) ≤
            crossL (toReal b - toReal v0) (toReal v0)
          exact le_refl _
        · have hc : crossR (toReal a - toReal v0) (toReal b - toReal v0) =
              ((crossV (a - v0) (b - v0) : ℚ) : ℝ) := by
            rw [← toReal_sub, ← toReal_sub, crossR_toReal]
          rw [Set.mem_setOf_eq, ← sub_nonneg, hgv0 (toReal a), hc]
          exact_mod_cast hab
        · rw [Set.mem_setOf_eq, ← sub_nonneg, hgv0 (toReal b),
            show crossR (toReal b - toReal v0) (toReal b - toReal v0) = 0 by
              rw [crossR]; ring]
      have hKside : polySet (v0 :: b :: t) ⊆
          {x : ℝ × ℝ | crossL (toReal b - toReal v0) x ≤
            crossL (toReal b - toReal v0) (toReal v0)} := by
        apply convexHull_min _
          (convex_halfSpace_le (LinearMap.isLinear (crossL (toReal b - toReal v0))) _)
        rintro x ⟨q, hq, rfl⟩
        rw [Set.mem_setOf_eq, ← sub_nonpos, hgv0 (toReal q)]
        rcases List.mem_cons.mp hq with rfl | hq
        · rw [crossR_self_sub]
        · rcases List.mem_cons.mp hq with rfl | hq
          · rw [show crossR (toReal q - toReal v0) (toReal q - toReal v0) = 0 by
              rw [crossR]; ring]
          · have hqb : 0 ≤ crossV (b - v0) (q - v0) :=
              (List.pairwise_cons.mp hp').1 q hq
            rw [← toReal_sub, ← toReal_sub, crossR_toReal]
            have hanti : crossV (q - v0) (b - v0) = -crossV (b - v0) (q - v0) :=
              crossV_antisymm _ _
            rw [hanti]
            push_cast
            linarith [(Rat.cast_nonneg (K := ℝ)).mpr hqb]
      have hAE := aedisjoint_of_separated (crossL (toReal b - toReal v0)) hker
        (toReal v0) hTside hKside
      have hadd : MeasureTheory.volume
            (convexHull ℝ {toReal v0, toReal a, toReal b} ∪ polySet (v0 :: b :: t)) =
          MeasureTheory.volume (convexHull ℝ {toReal v0, toReal a, toReal b}) +
            MeasureTheory.volume (polySet (v0 :: b :: t)) :=
        MeasureTheory.measure_union₀ hKnm hAE
      have hq1 : (0 : ℝ) ≤ ((|crossV (a - v0) (b - v0)| / 2 : ℚ) : ℝ) := by
        rw [Rat.cast_nonneg]
        positivity
      have hq2 : (0 : ℝ) ≤ ((fanAbsSum v0 (b :: t) : ℚ) : ℝ) := by
        rw [Rat.cast_nonneg]
        exact fanAbsSum_nonneg v0 (b :: t)
      calc ENNReal.ofReal ((fanAbsSum v0 (a :: b :: t) : ℚ) : ℝ)
          = ENNReal.ofReal ((|crossV (a - v0) (b - v0)| / 2 : ℚ) : ℝ) +
              ENNReal.ofReal ((fanAbsSum v0 (b :: t) : ℚ) : ℝ) := by
            rw [hrec, Rat.cast_add, ENNReal.ofReal_add hq1 hq2]
        _ ≤ MeasureTheory.volume (convexHull ℝ {toReal v0, toReal a, toReal b}) +
              MeasureTheory.volume (polySet (v0 :: b :: t)) := add_le_add hTvol ih
        _ = MeasureTheory.volume
              (convexHull ℝ {toReal v0, toReal a, toReal b} ∪ polySet (v0 :: b :: t)) :=
            hadd.symm
        _ ≤ MeasureTheory.volume (polySet (v0 :: a :: b :: t)) :=
            MeasureTheory.measure_mono (Set.union_subset hTsub hKsub)

/-! ## Total placed area is bounded by the container area -/

theorem areaB_nonneg (P : Pgon) : 0 ≤ areaB P := by
  rw [areaB]
  positivity

theorem sum_areaB_nonneg (l : List Pgon) : 0 ≤ (l.map areaB).sum := by
  induction l with
  | nil => simp
  | cons P l ih =>
    rw [List.map_cons, List.sum_cons]
    have := areaB_nonneg P
    linarith

/-- The area computed by the shoelace formula is at most the Lebesgue volume
of the polygon's convex hull, for a polygon in fan-convex position. -/
theorem areaB_le_volume (P : Pgon) (h : FanCCW P) :
    ENNReal.ofReal ((areaB P : ℚ) : ℝ) ≤ MeasureTheory.volume (polySet P) := by
  cases P with
  | nil =>
    rw [show areaB [] = 0 by rw [areaB]; simp [shoelaceSum, cyclicPairs]]
    simp
  | cons v0 rest =>
    have hpair : rest.Pairwise (fun u w => 0 ≤ crossV (u - v0) (w - v0)) := h
    have h1 : areaB (v0 :: rest) ≤ fanAbsSum v0 rest := by
      rw [areaB, shoelaceSum_eq_fanSum]
      exact abs_fanSum_le v0 rest
    refine le_trans ?_ (fanAbsSum_le_volume v0 rest hpair)
    apply ENNReal.ofReal_le_ofReal
    exact_mod_cast h1

/-- Union of the regions of a list of polygons. -/
def polyUnion : List Pgon → Set (ℝ × ℝ)
  | [] => ∅
  | P :: l => polySet P ∪ polyUnion l

theorem polyUnion_nullMeasurable (l : List Pgon) :
    MeasureTheory.NullMeasurableSet (polyUnion l) MeasureTheory.volume := by
  induction l with
  | nil => exact MeasurableSet.empty.nullMeasurableSet
  | cons P l ih => exact ((convex_polySet P).nullMeasurableSet _).union ih

theorem aedisjoint_polyUnion (A : Set (ℝ × ℝ)) (l : List Pgon)
    (h : ∀ Q ∈ l, MeasureTheory.AEDisjoint MeasureTheory.volume A (polySet Q)) :
    MeasureTheory.AEDisjoint MeasureTheory.volume A (polyUnion l) := by
  induction l with
  | nil =>
    show MeasureTheory.volume (A ∩ ∅) = 0
    simp
  | cons Q l ih =>
    show MeasureTheory.AEDisjoint MeasureTheory.volume A (polySet Q ∪ polyUnion l)
    exact MeasureTheory.AEDisjoint.union_right (h Q (List.mem_cons_self _ _))
      (ih (fun R hR => h R (List.mem_cons_of_mem _ hR)))

theorem polyUnion_subset {l : List Pgon} {S : Set (ℝ × ℝ)}
    (h : ∀ P ∈ l, polySet P ⊆ S) : polyUnion l ⊆ S := by
  induction l with
  | nil => exact Set.empty_subset S
  | cons P l ih =>
    exact Set.union_subset (h P (List.mem_cons_self _ _))
      (ih (fun Q hQ => h Q (List.mem_cons_of_mem _ hQ)))

/-- The total shoelace area of pairwise almost-disjoint fan-convex polygons is
at most the volume of their union. -/
theorem sum_areaB_le_vol_polyUnion :
    ∀ l : List Pgon, (∀ P ∈ l, FanCCW P) →
      l.Pairwise (fun P Q =>
        MeasureTheory.AEDisjoint MeasureTheory.volume (polySet P) (polySet Q)) →
      ENNReal.ofReal (((l.map areaB).sum : ℚ) : ℝ) ≤
        MeasureTheory.volume (polyUnion l)
  | [] => by
    intro _ _
    simp [polyUnion]
  | P :: l => by
    intro hfan hd
    rcases List.pairwise_cons.mp hd with ⟨hdP, hd'⟩
    have ih := sum_areaB_le_vol_polyUnion l
      (fun Q hQ => hfan Q (List.mem_cons_of_mem _ hQ)) hd'
    have h1 : ENNReal.ofReal ((areaB P : ℚ) : ℝ) ≤ MeasureTheory.volume (polySet P) :=
      areaB_le_volume P (hfan P (List.mem_cons_self _ _))
    have hq1 : (0 : ℝ) ≤ ((areaB P : ℚ) : ℝ) := by
      rw [Rat.cast_nonneg]
      exact areaB_nonneg P
    have hq2 : (0 : ℝ) ≤ (((l.map areaB).sum : ℚ) : ℝ) := by
      rw [Rat.cast_nonneg]
      exact sum_areaB_nonneg l
    have hadd : MeasureTheory.volume (polySet P ∪ polyUnion l) =
        MeasureTheory.volume (polySet P) + MeasureTheory.volume (polyUnion l) := by
      rw [Set.union_comm, MeasureTheory.measure_union₀
        ((convex_polySet P).nullMeasurableSet _)
        (MeasureTheory.AEDisjoint.symm (aedisjoint_polyUnion (polySet P) l hdP))]
      exact add_comm _ _
    calc ENNReal.ofReal ((((P :: l).map areaB).sum : ℚ) : ℝ)
        = ENNReal.ofReal ((areaB P : ℚ) : ℝ) +
            ENNReal.ofReal (((l.map areaB).sum : ℚ) : ℝ) := by
          rw [List.map_cons, List.sum_cons, Rat.cast_add, ENNReal.ofReal_add hq1 hq2]
      _ ≤ MeasureTheory.volume (polySet P) + MeasureTheory.volume (polyUnion l) :=
          add_le_add h1 ih
      _ = MeasureTheory.volume (polyUnion (P :: l)) := by
          rw [show polyUnion (P :: l) = polySet P ∪ polyUnion l from rfl, hadd]

/-- The volume of the container rectangle. -/
theorem vol_rectSet (W H : ℚ) (hW : 0 ≤ W) (hH : 0 ≤ H) :
    MeasureTheory.volume (rectSet W H) = ENNReal.ofReal (((W * H : ℚ) : ℝ)) := by
  rw [rectSet, MeasureTheory.Measure.volume_eq_prod, MeasureTheory.Measure.prod_prod,
    Real.volume_Icc, Real.volume_Icc, sub_zero, sub_zero,
    ← ENNReal.ofReal_mul (by exact_mod_cast hW)]
  push_cast
  rfl

/-- Total area bound: pairwise disjoint fan-convex polygons contained in the
`W × H` container have total shoelace area at most `W * H`. -/
theorem sum_areaB_le_container (W H : ℚ) (hW : 0 ≤ W) (hH : 0 ≤ H) (l : List Pgon)
    (hfan : ∀ P ∈ l, FanCCW P)
    (hcont : ∀ P ∈ l, polySet P ⊆ rectSet W H)
    (hd : l.Pairwise (fun P Q => polySet P ∩ polySet Q = ∅)) :
    (l.map areaB).sum ≤ W * H := by
  have hd' : l.Pairwise (fun P Q =>
      MeasureTheory.AEDisjoint MeasureTheory.volume (polySet P) (polySet Q)) := by
    refine hd.imp ?_
    intro P Q hPQ
    show MeasureTheory.volume (polySet P ∩ polySet Q) = 0
    rw [hPQ]
    exact MeasureTheory.measure_empty
  have hchain : ENNReal.ofReal (((l.map areaB).sum : ℚ) : ℝ) ≤
      ENNReal.ofReal (((W * H : ℚ) : ℝ)) := by
    calc ENNReal.ofReal (((l.map areaB).sum : ℚ) : ℝ)
        ≤ MeasureTheory.volume (polyUnion l) := sum_areaB_le_vol_polyUnion l hfan hd'
      _ ≤ MeasureTheory.volume (rectSet W H) :=
          MeasureTheory.measure_mono (polyUnion_subset hcont)
      _ = ENNReal.ofReal (((W * H : ℚ) : ℝ)) := vol_rectSet W H hW hH
  have hWH : (0 : ℝ) ≤ ((W * H : ℚ) : ℝ) := by
    rw [Rat.cast_nonneg]
    positivity
  have := (ENNReal.ofReal_le_ofReal_iff hWH).mp hchain
  exact_mod_cast this

/-- C5: in every run of the engine on a `W × H` container (the program's
containers have positive extent, its base shapes are convex hulls delivered in
counter-clockwise order with positive area), the reported utilization equals
(sum of placed areas) / (container area) × 100, lies in [0, 100], is 0 for an
empty placed list, and is 0 exactly when the placed list is empty. -/
theorem C5_utilization_reporter (W H : ℚ) (shape : Pgon) (angles : List Angle)
    (grid_step : ℚ) (hW : 0 < W) (hH : 0 < H) (hs : 0 < grid_step)
    (hfan : FanCCW shape) (harea : 0 < areaB shape) :
    utilizationOf (place_shapes (containerPoly W H) shape angles grid_step)
        (containerPoly W H) =
      (((place_shapes (containerPoly W H) shape angles grid_step).map areaB).sum /
        areaB (containerPoly W H)) * 100 ∧
    0 ≤ utilizationOf (place_shapes (containerPoly W H) shape angles grid_step)
        (containerPoly W H) ∧
    utilizationOf (place_shapes (containerPoly W H) shape angles grid_step)
        (containerPoly W H) ≤ 100 ∧
    (utilizationOf (place_shapes (containerPoly W H) shape angles grid_step)
        (containerPoly W H) = 0 ↔
      place_shapes (containerPoly W H) shape angles grid_step = []) := by
  have hAc : areaB (containerPoly W H) = W * H :=
    areaB_containerPoly W H (le_of_lt hW) (le_of_lt hH)
  have hApos : 0 < areaB (containerPoly W H) := by
    rw [hAc]
    positivity
  have hsum_nonneg : 0 ≤
      ((place_shapes (containerPoly W H) shape angles grid_step).map areaB).sum :=
    sum_areaB_nonneg _
  have hgood := place_shapes_good (containerPoly W H) shape angles grid_step
  have hsum_le : ((place_shapes (containerPoly W H) shape angles grid_step).map areaB).sum ≤
      W * H := by
    apply sum_areaB_le_container W H (le_of_lt hW) (le_of_lt hH)
    · exact placed_fanCCW (containerPoly W H) shape angles grid_step hfan
    · intro P hP
      exact containsB_rect_subset hW hH (hgood.1 P hP)
    · refine hgood.2.imp ?_
      intro P Q hPQ
      rw [Set.inter_comm]
      exact intersectsB_false_disjoint hPQ
  refine ⟨rfl, ?_, ?_, ?_, ?_⟩
  · rw [utilizationOf]
    positivity
  · rw [utilizationOf]
    calc (((place_shapes (containerPoly W H) shape angles grid_step).map areaB).sum /
          areaB (containerPoly W H)) * 100
        ≤ 1 * 100 := by
          apply mul_le_mul_of_nonneg_right _ (by norm_num)
          rw [div_le_one hApos, hAc]
          exact hsum_le
      _ = 100 := one_mul 100
  · intro h0
    cases hl : place_shapes (containerPoly W H) shape angles grid_step with
    | nil => rfl
    | cons P rest =>
      exfalso
      have hPmem : P ∈ place_shapes (containerPoly W H) shape angles grid_step := by
        rw [hl]
        exact List.mem_cons_self _ _
      have hPA : areaB P = areaB shape :=
        placed_areaB (containerPoly W H) shape angles grid_step P hPmem
      have hsum_pos : 0 <
          ((place_shapes (containerPoly W H) shape angles grid_step).map areaB).sum := by
        rw [hl, List.map_cons, List.sum_cons, hPA]
        have := sum_areaB_nonneg rest
        linarith
      have hpos : 0 < utilizationOf
          (place_shapes (containerPoly W H) shape angles grid_step) (containerPoly W H) := by
        rw [utilizationOf]
        exact mul_pos (div_pos hsum_pos hApos) (by norm_num)
      exact absurd h0 (ne_of_gt hpos)
  · intro h0
    rw [utilizationOf, h0]
    simp

/-- The program's base shapes are in fan-convex position; the unit square is. -/
theorem fanCCW_unitSquare : FanCCW unitSquare := by
  show ([((1 : ℚ), (0 : ℚ)), (1, 1), (0, 1)]).Pairwise
    (fun u w => 0 ≤ crossV (u - ((0 : ℚ), (0 : ℚ))) (w - ((0 : ℚ), (0 : ℚ))))
  with_unfolding_all decide

/-- Witness for C5: the unit square packed in the 10 × 10 container at step 1. -/
theorem C5_utilization_reporter_witness :
    (0 : ℚ) < 10 ∧ (0 : ℚ) < 1 ∧ FanCCW unitSquare ∧ 0 < areaB unitSquare ∧
      (utilizationOf (place_shapes (containerPoly 10 10) unitSquare [Angle.a0] 1)
          (containerPoly 10 10) =
        (((place_shapes (containerPoly 10 10) unitSquare [Angle.a0] 1).map areaB).sum /
          areaB (containerPoly 10 10)) * 100 ∧
      0 ≤ utilizationOf (place_shapes (containerPoly 10 10) unitSquare [Angle.a0] 1)
          (containerPoly 10 10) ∧
      utilizationOf (place_shapes (containerPoly 10 10) unitSquare [Angle.a0] 1)
          (containerPoly 10 10) ≤ 100 ∧
      (utilizationOf (place_shapes (containerPoly 10 10) unitSquare [Angle.a0] 1)
          (containerPoly 10 10) = 0 ↔
        place_shapes (containerPoly 10 10) unitSquare [Angle.a0] 1 = [])) :=
  ⟨by norm_num, by norm_num, fanCCW_unitSquare, by with_unfolding_all decide,
    C5_utilization_reporter 10 10 unitSquare [Angle.a0] 1 (by norm_num) (by norm_num)
      (by norm_num) fanCCW_unitSquare (by with_unfolding_all decide)⟩
